import Mathlib

/-!
# fbgame: collision, physics tick and software rasteriser

A shallow embedding of the framebuffer platformer demos `2_jumping.cpp` and
`5_image.cpp` (with the RGB565 encoder that `example_1.cpp` shares), and
theorems about them.

Modelling conventions.

* A C++ `int` is a mathematical integer (`Int`): signed overflow is undefined
  behaviour in C++, and the coordinates of the game stay far away from it.
* The framebuffer descriptor fields are `__u32`; the byte offset of a pixel is
  computed in 32-bit unsigned arithmetic, hence reduced modulo `2 ^ 32`.
* A buffer is a map from byte offsets (relative to `fb_ptr`) to byte values;
  storing a `FIXEL_FORMAT` (`uint16_t`) writes two consecutive bytes.
-/

/-! ## Constants shared by both demos -/

/-- Screen width: `const int WIDTH = 1280;`. -/
def WIDTH : Int := 1280

/-- Screen height: `const int HEIGHT = 720;`. -/
def HEIGHT : Int := 720

/-- Bounce constant: `const int BOUND_GRAVITY = -10;`. -/
def BOUND_GRAVITY : Int := -10

/-! ## Entity model -/

/-- The state of a `Player` object: the `Unit` position, the velocity
accumulator `gravity`, and the public members `width`, `height`. -/
structure Player where
  x : Int
  y : Int
  gravity : Int
  width : Int
  height : Int
  deriving DecidableEq, Repr

/-- A `Block` object: the `Unit` position and the public members `width`, `height`. -/
structure Block where
  x : Int
  y : Int
  width : Int
  height : Int
  deriving DecidableEq, Repr

/-- The enumeration `CrashCode`. -/
inductive CrashCode where
  | NONE
  | TOP
  | BOTTOM
  | LEFT
  | RIGHT
  deriving DecidableEq, Repr

/-- The method `Unit::move`: `x += dx`. -/
def Player.move (p : Player) (dx : Int) : Player :=
  { p with x := p.x + dx }

/-- The method `Unit::moveTo` (declared in `2_jumping.cpp` only): `x = targetX`. -/
def Player.moveTo (p : Player) (targetX : Int) : Player :=
  { p with x := targetX }

/-- The method `Unit::setY`: `y = targetY`. -/
def Player.setY (p : Player) (targetY : Int) : Player :=
  { p with y := targetY }

/-- The method `Player::setGravity`. -/
def Player.setGravity (p : Player) (g : Int) : Player :=
  { p with gravity := g }

/-! ## Specification-side predicates -/

/-- The overlap test in the words of the specification:
`playerRight >= blockLeft && playerLeft <= blockRight &&
 playerBottom >= blockTop && playerTop <= blockBottom`. -/
def aabbOverlap (p : Player) (b : Block) : Prop :=
  p.x + p.width ≥ b.x ∧ p.x ≤ b.x + b.width ∧
  p.y + p.height ≥ b.y ∧ p.y ≤ b.y + b.height

instance (p : Player) (b : Block) : Decidable (aabbOverlap p b) := by
  unfold aabbOverlap; infer_instance

/-- The player box strictly contains the block box on both axes. -/
def strictlyEncloses (p : Player) (b : Block) : Prop :=
  p.x < b.x ∧ b.x + b.width < p.x + p.width ∧
  p.y < b.y ∧ b.y + b.height < p.y + p.height

instance (p : Player) (b : Block) : Decidable (strictlyEncloses p b) := by
  unfold strictlyEncloses; infer_instance

/-- The player box and the block box overlap on the vertical axis:
`playerBottom >= blockTop && playerTop <= blockBottom`. -/
def verticalOverlap (p : Player) (b : Block) : Prop :=
  p.y + p.height ≥ b.y ∧ p.y ≤ b.y + b.height

instance (p : Player) (b : Block) : Decidable (verticalOverlap p b) := by
  unfold verticalOverlap; infer_instance

/-- The player box and the block box overlap on the horizontal axis:
`playerRight >= blockLeft && playerLeft <= blockRight`. -/
def horizontalOverlap (p : Player) (b : Block) : Prop :=
  p.x + p.width ≥ b.x ∧ p.x ≤ b.x + b.width

instance (p : Player) (b : Block) : Decidable (horizontalOverlap p b) := by
  unfold horizontalOverlap; infer_instance

/-- The coordinate `e` lies in the closed span `[lo, lo + len]`. -/
def inSpan (e lo len : Int) : Prop := lo ≤ e ∧ e ≤ lo + len

instance (e lo len : Int) : Decidable (inSpan e lo len) := by
  unfold inSpan; infer_instance

/-- First-match reference classifier, written from the specification: test the
player's bottom edge against the block's vertical span, then the top edge, then
the right edge against the horizontal span, then the left edge; the first test
that matches decides. -/
def firstMatch (p : Player) (b : Block) : CrashCode :=
  if inSpan (p.y + p.height) b.y b.height then .TOP
  else if inSpan p.y b.y b.height then .BOTTOM
  else if inSpan (p.x + p.width) b.x b.width then .LEFT
  else if inSpan p.x b.x b.width then .RIGHT
  else .NONE

/-! ## `2_jumping.cpp` -/

namespace Jumping

/-- Ground level of `2_jumping.cpp`: `const int GROUND_LEVEL = HEIGHT - 60;`. -/
def GROUND_LEVEL : Int := HEIGHT - 60

/-- The constructor `Player(startX, startY)` of `2_jumping.cpp`: `gravity = 1`,
`width = 10`, `height = 10`. -/
def newPlayer (startX startY : Int) : Player :=
  { x := startX, y := startY, gravity := 1, width := 10, height := 10 }

/-- The method `Block::checkCrash` of `2_jumping.cpp` (lines 154-172). -/
def checkCrash (b : Block) (player : Player) : CrashCode :=
  if player.x + player.width ≥ b.x ∧ player.x ≤ b.x + b.width then
    if player.y + player.height ≥ b.y ∧ player.y ≤ b.y + b.height then
      if player.y + player.height ≥ b.y ∧ player.y + player.height ≤ b.y + b.height then
        .TOP
      else if player.y ≥ b.y ∧ player.y ≤ b.y + b.height then
        .BOTTOM
      else if player.x + player.width ≥ b.x ∧ player.x + player.width ≤ b.x + b.width then
        .LEFT
      else if player.x ≥ b.x ∧ player.x ≤ b.x + b.width then
        .RIGHT
      else .NONE
    else .NONE
  else .NONE

/-- The `switch (code)` of the block loop of `2_jumping.cpp` (lines 371-386):
the correction applied to the player for a given crash code. -/
def correct (code : CrashCode) (player : Player) (block : Block) : Player :=
  match code with
  | .TOP => (player.setGravity 0).setY (block.y - player.height)
  | .BOTTOM => (player.setGravity BOUND_GRAVITY).setY (block.y + block.height)
  | .LEFT => player.move (block.x - player.width)
  | .RIGHT => player.move (block.x + block.width)
  | .NONE => player

/-- The body of the block loop of `2_jumping.cpp` (lines 370-386):
`CrashCode code = block.checkCrash(player);` followed by the `switch`. -/
def applyCrash (player : Player) (block : Block) : Player :=
  correct (checkCrash block player) player block

/-- The loop `for (Block block : blocks)` of `2_jumping.cpp`, drawing left out. -/
def blockLoop (player : Player) (blocks : List Block) : Player :=
  blocks.foldl applyCrash player

/-- The input delta, gravity integration and ground clamp of one iteration of
the main loop of `2_jumping.cpp` (lines 349-362). -/
def physics (left right : Bool) (player : Player) : Player :=
  let p1 := if left then player.move (-5) else player
  let p2 := if right then p1.move 5 else p1
  let p3 := p2.setGravity (p2.gravity + 1)
  let p4 := p3.setY (p3.y + p3.gravity)
  if p4.y ≥ GROUND_LEVEL then (p4.setY GROUND_LEVEL).setGravity BOUND_GRAVITY else p4

/-- One complete tick of `2_jumping.cpp`: physics, then the whole block loop. -/
def tick (blocks : List Block) (player : Player) (keys : Bool × Bool) : Player :=
  blockLoop (physics keys.1 keys.2 player) blocks

/-- The scene built at startup (lines 259-264): ten blocks of size 50 x 10. -/
def scene : List Block :=
  (List.range 10).map fun (i : Nat) =>
    { x := 120 + (i : Int) * 100, y := (HEIGHT - 80) - 20 * (i : Int), width := 50, height := 10 }

/-- The player after the given sequence of key states (left held, right held),
one per tick, starting from `Player player(100, GROUND_LEVEL)`. -/
def run (keys : List (Bool × Bool)) : Player :=
  keys.foldl (tick scene) (newPlayer 100 GROUND_LEVEL)

end Jumping

/-! ## `5_image.cpp` -/

namespace ImageGame

/-- Ground level of `5_image.cpp`: `const int GROUND_LEVEL = (HEIGHT - 50);`. -/
def GROUND_LEVEL : Int := HEIGHT - 50

/-- The constructor `Player(startX, startY)` of `5_image.cpp`: `gravity = 1`, the
size is the size of the decoded sprite `ball.bmp` (a parameter here, the file
is not part of the sources), and `y -= height`. -/
def newPlayer (imageWidth imageHeight startX startY : Int) : Player :=
  { x := startX, y := startY - imageHeight, gravity := 1,
    width := imageWidth, height := imageHeight }

/-- The method `Block::checkCrash` of `5_image.cpp` (lines 253-271). -/
def checkCrash (b : Block) (player : Player) : CrashCode :=
  if player.x + player.width ≥ b.x ∧ player.x ≤ b.x + b.width then
    if player.y + player.height ≥ b.y ∧ player.y ≤ b.y + b.height then
      if player.y + player.height ≥ b.y ∧ player.y + player.height ≤ b.y + b.height then
        .TOP
      else if player.y ≥ b.y ∧ player.y ≤ b.y + b.height then
        .BOTTOM
      else if player.x + player.width ≥ b.x ∧ player.x + player.width ≤ b.x + b.width then
        .LEFT
      else if player.x ≥ b.x ∧ player.x ≤ b.x + b.width then
        .RIGHT
      else .NONE
    else .NONE
  else .NONE

/-- The `switch (code)` of the block loop of `5_image.cpp` (lines 453-468):
the correction applied to the player for a given crash code. -/
def correct (code : CrashCode) (player : Player) (block : Block) : Player :=
  match code with
  | .TOP => (player.setGravity BOUND_GRAVITY).setY (block.y - player.height)
  | .BOTTOM => (player.setGravity 0).setY (block.y + block.height)
  | .LEFT => player.move (block.x - player.width)
  | .RIGHT => player.move (block.x + block.width)
  | .NONE => player

/-- The body of the block loop of `5_image.cpp` (lines 450-468):
`CrashCode code = block.checkCrash(player);` followed by the `switch`. -/
def applyCrash (player : Player) (block : Block) : Player :=
  correct (checkCrash block player) player block

/-- The loop `for (Block block : blocks)` of `5_image.cpp`, drawing left out. -/
def blockLoop (player : Player) (blocks : List Block) : Player :=
  blocks.foldl applyCrash player

/-- The input delta, gravity integration and ground clamp of one iteration of
the main loop of `5_image.cpp` (lines 426-444), drawing left out. -/
def physics (left right : Bool) (player : Player) : Player :=
  let moveVal0 : Int := 0
  let moveVal1 := if left then moveVal0 - 5 else moveVal0
  let moveVal := if right then moveVal1 + 5 else moveVal1
  let p1 := player.move moveVal
  let p2 := p1.setGravity (p1.gravity + 1)
  let p3 := p2.setY (p2.y + p2.gravity)
  if p3.y ≥ GROUND_LEVEL - p3.height then
    (p3.setY (GROUND_LEVEL - p3.height)).setGravity BOUND_GRAVITY
  else p3

/-- The scene built at startup (lines 367-372): ten blocks of size 50 x 10. -/
def scene : List Block :=
  (List.range 10).map fun (i : Nat) =>
    { x := 130 + (i : Int) * 100, y := (HEIGHT - 80) - 20 * (i : Int), width := 50, height := 10 }

/-- One complete tick of `5_image.cpp`: physics, then the whole block loop. -/
def tick (blocks : List Block) (player : Player) (keys : Bool × Bool) : Player :=
  blockLoop (physics keys.1 keys.2 player) blocks

/-- The player after the given sequence of key states (left held, right held),
one per tick, starting from `Player player(100, GROUND_LEVEL)` with a sprite of
the given size. -/
def run (imageWidth imageHeight : Int) (keys : List (Bool × Bool)) : Player :=
  keys.foldl (tick scene) (newPlayer imageWidth imageHeight 100 GROUND_LEVEL)

end ImageGame

/-! ## Pixel format codec -/

/-- The structure `Color`: four `uint8_t` channels, each below 256. -/
structure Color where
  r : Nat
  g : Nat
  b : Nat
  a : Nat
  deriving DecidableEq, Repr

/-- The channels of a colour are 8-bit values. -/
def Color.valid (c : Color) : Prop := c.r < 256 ∧ c.g < 256 ∧ c.b < 256 ∧ c.a < 256

instance (c : Color) : Decidable c.valid := by
  unfold Color.valid; infer_instance

/-- The function `convertTo` of `2_jumping.cpp` and `5_image.cpp` on the 16-bit
path (`USE_FIXEL_FORMAT_32` is not defined): the channels are promoted to `int`,
combined, and the result is converted to `uint16_t`. -/
def convertTo (color : Color) : Nat :=
  ((((color.r &&& 0xF8) <<< 8) ||| ((color.g &&& 0xFC) <<< 3)) ||| (color.b >>> 3)) % 2 ^ 16

/-- The function `convertTo16Bit` of `example_1.cpp`. -/
def convertTo16Bit (color : Color) : Nat :=
  ((((color.r &&& 0xF8) <<< 8) ||| ((color.g &&& 0xFC) <<< 3)) ||| (color.b >>> 3)) % 2 ^ 16

/-! ## Surface -/

/-- The fields of `fb_var_screeninfo` read by the drawing code (all `__u32`). -/
structure VarScreenInfo where
  xoffset : Nat
  yoffset : Nat
  bits_per_pixel : Nat
  deriving DecidableEq, Repr

/-- The field of `fb_fix_screeninfo` read by the drawing code (`__u32`). -/
structure FixScreenInfo where
  line_length : Nat
  deriving DecidableEq, Repr

/-- A buffer addressed from `fb_ptr`: byte offset to byte value. -/
abbrev Mem := Int → Nat

/-- The store `*((FIXEL_FORMAT*)(fb_ptr + location)) = color` for the 16-bit
`FIXEL_FORMAT`: two consecutive bytes, low byte first. -/
def store16 (fb_ptr : Mem) (location : Int) (color : Nat) : Mem :=
  fun a => if a = location then color % 256
    else if a = location + 1 then color / 256 % 256
    else fb_ptr a

/-- The load `*((FIXEL_FORMAT*)(fb_ptr + location))` of a 16-bit pixel. -/
def load16 (fb_ptr : Mem) (location : Int) : Nat :=
  fb_ptr location + 256 * fb_ptr (location + 1)

/-- The two bytes of the pixel cell at `loc` hold the 16-bit value `color`. -/
def cellHolds (m : Mem) (loc : Int) (color : Nat) : Prop :=
  m loc = color % 256 ∧ m (loc + 1) = color / 256 % 256

instance (m : Mem) (loc : Int) (color : Nat) : Decidable (cellHolds m loc color) := by
  unfold cellHolds; infer_instance

/-- The surface formula
`(px + vinfo.xoffset) * (vinfo.bits_per_pixel / 8) + (py + vinfo.yoffset) * finfo.line_length`,
evaluated in 32-bit unsigned arithmetic as C++ does with `__u32` operands. -/
def location (vinfo : VarScreenInfo) (finfo : FixScreenInfo) (px py : Int) : Int :=
  ((px + (vinfo.xoffset : Int)) * ((vinfo.bits_per_pixel / 8 : Nat) : Int) +
    (py + (vinfo.yoffset : Int)) * (finfo.line_length : Int)) % 2 ^ 32

/-- The pixel (px, py) lies on the surface: `0 <= px < WIDTH`, `0 <= py < HEIGHT`. -/
def onSurface (px py : Int) : Prop := 0 ≤ px ∧ px < WIDTH ∧ 0 ≤ py ∧ py < HEIGHT

instance (px py : Int) : Decidable (onSurface px py) := by
  unfold onSurface; infer_instance

/-- The pixel (px, py) lies in the rectangle (x, y, w, h). -/
def inRect (x y w h px py : Int) : Prop := x ≤ px ∧ px < x + w ∧ y ≤ py ∧ py < y + h

instance (x y w h px py : Int) : Decidable (inRect x y w h px py) := by
  unfold inRect; infer_instance

/-- The two-byte cells of distinct surface pixels do not overlap. -/
def NoOverlap (vinfo : VarScreenInfo) (finfo : FixScreenInfo) : Prop :=
  ∀ px py qx qy : Int, onSurface px py → onSurface qx qy → (px ≠ qx ∨ py ≠ qy) →
    location vinfo finfo px py + 2 ≤ location vinfo finfo qx qy ∨
    location vinfo finfo qx qy + 2 ≤ location vinfo finfo px py

namespace ImageGame

/-- The body of the inner loop of `fillRect` of `5_image.cpp` (lines 135-144)
for the loop counters `j` and `i`. -/
def fillRectPixel (vinfo : VarScreenInfo) (finfo : FixScreenInfo) (x y : Int) (color : Nat)
    (j : Nat) (fb_ptr : Mem) (i : Nat) : Mem :=
  let px := x + (i : Int)
  let py := y + (j : Int)
  if px < 0 ∨ px ≥ WIDTH ∨ py < 0 ∨ py ≥ HEIGHT then fb_ptr
  else
    let loc := location vinfo finfo px py
    if color ≠ 0 then store16 fb_ptr loc color else fb_ptr

/-- The inner loop `for (int i = 0; i < w; ++i)` of `fillRect` of `5_image.cpp`. -/
def fillRectRow (vinfo : VarScreenInfo) (finfo : FixScreenInfo) (x y w : Int) (color : Nat)
    (fb_ptr : Mem) (j : Nat) : Mem :=
  (List.range w.toNat).foldl (fillRectPixel vinfo finfo x y color j) fb_ptr

/-- The function `fillRect` of `5_image.cpp` (lines 132-147): the outer loop
`for (int j = 0; j < h; ++j)` over the rows. -/
def fillRect (fb_ptr : Mem) (vinfo : VarScreenInfo) (finfo : FixScreenInfo)
    (x y w h : Int) (color : Nat) : Mem :=
  (List.range h.toNat).foldl (fillRectRow vinfo finfo x y w color) fb_ptr

end ImageGame

namespace ImageGame

/-- The body of the inner loop of `fillRectData` of `5_image.cpp` (lines 151-157)
for the loop counters `j` and `i`; `data` is the source block, indexed as the
pointer `FIXEL_FORMAT * data` is. -/
def fillRectDataPixel (vinfo : VarScreenInfo) (finfo : FixScreenInfo) (x y w : Int)
    (data : Int → Nat) (j : Nat) (fb_ptr : Mem) (i : Nat) : Mem :=
  let px := x + (i : Int)
  let py := y + (j : Int)
  let loc := location vinfo finfo px py
  if data ((j : Int) * w + (i : Int)) ≠ 0 then
    store16 fb_ptr loc (data ((j : Int) * w + (i : Int)))
  else fb_ptr

/-- The inner loop `for (int i = 0; i < w; ++i)` of `fillRectData` of `5_image.cpp`. -/
def fillRectDataRow (vinfo : VarScreenInfo) (finfo : FixScreenInfo) (x y w : Int)
    (data : Int → Nat) (fb_ptr : Mem) (j : Nat) : Mem :=
  (List.range w.toNat).foldl (fillRectDataPixel vinfo finfo x y w data j) fb_ptr

/-- The function `fillRectData` of `5_image.cpp` (lines 148-160): the outer loop
`for (int j = 0; j < h; ++j)` over the rows. -/
def fillRectData (fb_ptr : Mem) (vinfo : VarScreenInfo) (finfo : FixScreenInfo)
    (x y w h : Int) (data : Int → Nat) : Mem :=
  (List.range h.toNat).foldl (fillRectDataRow vinfo finfo x y w data) fb_ptr

end ImageGame

/-- The destination pixels of a blit of size w x h at (x, y) are all
addressable: each lies on the surface, and the surface pixels have separate
two-byte cells. -/
def Addressable (vinfo : VarScreenInfo) (finfo : FixScreenInfo) (x y w h : Int) : Prop :=
  NoOverlap vinfo finfo ∧ ∀ px py : Int, inRect x y w h px py → onSurface px py

/-! ## Input sampler -/

/-- The fields of `struct input_event` read by the main loops: `type` and
`code` are `__u16`, `value` is `__s32`. -/
structure InputEvent where
  type : Nat
  code : Nat
  value : Int
  deriving DecidableEq, Repr

/-- The variables the event handler updates: `key_left_pressed`,
`key_right_pressed` and `running`. -/
structure KeyState where
  left : Bool
  right : Bool
  running : Bool
  deriving DecidableEq, Repr

/-- The event type `EV_KEY` of `linux/input.h` (0x01). -/
def EV_KEY : Nat := 1

/-- The key code `KEY_ESC` of `linux/input.h` (1). -/
def KEY_ESC : Nat := 1

/-- The key code `KEY_LEFT` of `linux/input.h` (105). -/
def KEY_LEFT : Nat := 105

/-- The key code `KEY_RIGHT` of `linux/input.h` (106). -/
def KEY_RIGHT : Nat := 106

namespace Jumping

/-- The handling of one event read from the keyboard in the main loop of
`2_jumping.cpp` (lines 320-343). -/
def handleEvent (s : KeyState) (ev : InputEvent) : KeyState :=
  if ev.type = EV_KEY then
    if ev.value = 1 then
      if ev.code = KEY_LEFT then { s with left := true }
      else if ev.code = KEY_RIGHT then { s with right := true }
      else if ev.code = KEY_ESC then { s with running := false }
      else s
    else if ev.value = 0 then
      if ev.code = KEY_LEFT then { s with left := false }
      else if ev.code = KEY_RIGHT then { s with right := false }
      else s
    else s
  else s

/-- The player after the given sequence of key states, one tick each, from an
arbitrary player and block list. -/
def ticks (blocks : List Block) (player : Player) (keys : List (Bool × Bool)) : Player :=
  keys.foldl (tick blocks) player

/-- The player after `n` ticks with no key held. -/
def idle (blocks : List Block) (player : Player) (n : Nat) : Player :=
  ticks blocks player (List.replicate n (false, false))

/-- The block of the no-input scenario: `Block(120, GROUND_LEVEL - 80, 50, 10)`. -/
def scenarioBlock : Block :=
  { x := 120, y := GROUND_LEVEL - 80, width := 50, height := 10 }

/-- The nineteen states a 10 x 10 player at x = 100 runs through while it
bounces freely, listed from the state right after a ground contact. -/
def bounceStates : List Player :=
  [⟨100, 660, -10, 10, 10⟩, ⟨100, 651, -9, 10, 10⟩, ⟨100, 643, -8, 10, 10⟩,
   ⟨100, 636, -7, 10, 10⟩, ⟨100, 630, -6, 10, 10⟩, ⟨100, 625, -5, 10, 10⟩,
   ⟨100, 621, -4, 10, 10⟩, ⟨100, 618, -3, 10, 10⟩, ⟨100, 616, -2, 10, 10⟩,
   ⟨100, 615, -1, 10, 10⟩, ⟨100, 615, 0, 10, 10⟩, ⟨100, 616, 1, 10, 10⟩,
   ⟨100, 618, 2, 10, 10⟩, ⟨100, 621, 3, 10, 10⟩, ⟨100, 625, 4, 10, 10⟩,
   ⟨100, 630, 5, 10, 10⟩, ⟨100, 636, 6, 10, 10⟩, ⟨100, 643, 7, 10, 10⟩,
   ⟨100, 651, 8, 10, 10⟩]

end Jumping

namespace ImageGame

/-- The handling of one event read from the keyboard in the main loop of
`5_image.cpp` (lines 397-420). -/
def handleEvent (s : KeyState) (ev : InputEvent) : KeyState :=
  if ev.type = EV_KEY then
    if ev.value = 1 then
      if ev.code = KEY_LEFT then { s with left := true }
      else if ev.code = KEY_RIGHT then { s with right := true }
      else if ev.code = KEY_ESC then { s with running := false }
      else s
    else if ev.value = 0 then
      if ev.code = KEY_LEFT then { s with left := false }
      else if ev.code = KEY_RIGHT then { s with right := false }
      else s
    else s
  else s

end ImageGame

/-! ## Classification -/

theorem Jumping.checkCrash_eq_none_iff (b : Block) (p : Player) :
    Jumping.checkCrash b p = .NONE ↔ (¬ aabbOverlap p b ∨ strictlyEncloses p b) := by
  unfold Jumping.checkCrash aabbOverlap strictlyEncloses
  split_ifs <;> simp <;> omega

theorem ImageGame.checkCrash_eq_jumping (b : Block) (p : Player) :
    ImageGame.checkCrash b p = Jumping.checkCrash b p := rfl

/-- C1 (as stated, refuted): the 10 x 10 player at (100, 100) overlaps the
5 x 5 block at (102, 102), yet `checkCrash` answers `NONE`. -/
theorem c1_overlap_yet_none :
    aabbOverlap (Jumping.newPlayer 100 100) ⟨102, 102, 5, 5⟩ ∧
      Jumping.checkCrash ⟨102, 102, 5, 5⟩ (Jumping.newPlayer 100 100) = .NONE ∧
      ImageGame.checkCrash ⟨102, 102, 5, 5⟩ (Jumping.newPlayer 100 100) = .NONE := by
  decide

/-- C1 (amended): in both demos `checkCrash` returns `NONE` exactly when the
overlap test fails or the player box strictly contains the block box on both
axes; in every other case the result is one of `TOP`, `BOTTOM`, `LEFT`, `RIGHT`. -/
theorem c1_checkCrash_none_iff (b : Block) (p : Player) :
    (Jumping.checkCrash b p = .NONE ↔ (¬ aabbOverlap p b ∨ strictlyEncloses p b)) ∧
    (ImageGame.checkCrash b p = .NONE ↔ (¬ aabbOverlap p b ∨ strictlyEncloses p b)) ∧
    ((aabbOverlap p b ∧ ¬ strictlyEncloses p b) ↔
      (Jumping.checkCrash b p = .TOP ∨ Jumping.checkCrash b p = .BOTTOM ∨
        Jumping.checkCrash b p = .LEFT ∨ Jumping.checkCrash b p = .RIGHT)) := by
  have h := Jumping.checkCrash_eq_none_iff b p
  refine ⟨h, by rw [ImageGame.checkCrash_eq_jumping]; exact h, ?_⟩
  constructor
  · intro hov
    have hne : Jumping.checkCrash b p ≠ .NONE := by
      rw [Ne, h]; tauto
    cases hc : Jumping.checkCrash b p <;> simp_all
  · intro hc
    have hne : Jumping.checkCrash b p ≠ .NONE := by
      rcases hc with hc | hc | hc | hc <;> rw [hc] <;> decide
    rw [Ne, h] at hne
    tauto

/-- C2: on overlapping boxes both copies of `checkCrash` agree with the
first-match reference classifier; in particular `TOP` is returned whenever the
bottom-edge test matches, whatever the later tests say, and the two copies
return the same code on all boxes. -/
theorem c2_checkCrash_eq_firstMatch (b : Block) (p : Player) (h : aabbOverlap p b) :
    Jumping.checkCrash b p = firstMatch p b ∧
    ImageGame.checkCrash b p = firstMatch p b ∧
    (inSpan (p.y + p.height) b.y b.height → Jumping.checkCrash b p = .TOP) ∧
    (∀ (b1 : Block) (p1 : Player), ImageGame.checkCrash b1 p1 = Jumping.checkCrash b1 p1) := by
  have key : Jumping.checkCrash b p = firstMatch p b := by
    unfold aabbOverlap at h
    unfold Jumping.checkCrash firstMatch inSpan
    split_ifs <;> first | rfl | (exfalso; omega)
  refine ⟨key, by rw [ImageGame.checkCrash_eq_jumping]; exact key, ?_, fun _ _ => rfl⟩
  intro ht
  rw [key]
  unfold firstMatch
  rw [if_pos ht]

/-- C2 (witness): the 10 x 10 player at (100, 100) against the block
(100, 105, 50, 10), where the `TOP`, `LEFT` and `RIGHT` tests all match. -/
theorem c2_checkCrash_eq_firstMatch_witness :
    aabbOverlap (Jumping.newPlayer 100 100) ⟨100, 105, 50, 10⟩ ∧
      Jumping.checkCrash ⟨100, 105, 50, 10⟩ (Jumping.newPlayer 100 100) = .TOP ∧
      firstMatch (Jumping.newPlayer 100 100) ⟨100, 105, 50, 10⟩ = .TOP :=
  have h : aabbOverlap (Jumping.newPlayer 100 100) ⟨100, 105, 50, 10⟩ := by decide
  ⟨h, (c2_checkCrash_eq_firstMatch ⟨100, 105, 50, 10⟩ (Jumping.newPlayer 100 100) h).2.2.1
      (by decide), by decide⟩

/-! ## Corrections of the block loop -/

set_option maxRecDepth 8000 in
/-- C3 (the code at failing inputs): with a 20 x 20 sprite, holding right on the
first and third tick of `5_image.cpp` brings the player to x = 110, y = 633
against the first block (130, 640, 50, 10); `checkCrash` answers `LEFT` and the
correction `move(block.getX() - player.width)` adds 110 to x, leaving x = 220
and the right edge at 240 instead of 130. In `2_jumping.cpp` the same happens to
the 10 x 10 player at (115, 635) against a block (120, 638, 50, 5), x becoming
225, and for `RIGHT` the player at (165, 635) ends at x = 335 instead of 170.
The unused `Unit::moveTo` with the same argument would put the right edge on
the block's left edge. -/
theorem c3_horizontal_correction_not_snapped :
    (ImageGame.physics false true
        (ImageGame.run 20 20 [(false, true), (false, false)])) = ⟨110, 633, -8, 20, 20⟩ ∧
    ImageGame.checkCrash ⟨130, 640, 50, 10⟩ ⟨110, 633, -8, 20, 20⟩ = .LEFT ∧
    ImageGame.run 20 20 [(false, true), (false, false), (false, true)]
      = ⟨220, 633, -8, 20, 20⟩ ∧
    Jumping.checkCrash ⟨120, 638, 50, 5⟩ ⟨115, 635, 1, 10, 10⟩ = .LEFT ∧
    Jumping.applyCrash ⟨115, 635, 1, 10, 10⟩ ⟨120, 638, 50, 5⟩ = ⟨225, 635, 1, 10, 10⟩ ∧
    Jumping.checkCrash ⟨120, 638, 50, 5⟩ ⟨165, 635, 1, 10, 10⟩ = .RIGHT ∧
    Jumping.applyCrash ⟨165, 635, 1, 10, 10⟩ ⟨120, 638, 50, 5⟩ = ⟨335, 635, 1, 10, 10⟩ ∧
    (Player.moveTo ⟨115, 635, 1, 10, 10⟩ (120 - 10)).x + 10 = 120 := by
  decide

/-! ## Ground clamp -/

theorem Jumping.scene_mem (b : Block) (hb : b ∈ Jumping.scene) :
    b.y ≤ 640 ∧ b.height = 10 := by
  obtain ⟨i, _, rfl⟩ := List.mem_map.1 hb
  refine ⟨?_, rfl⟩
  show (HEIGHT - 80) - 20 * (i : Int) ≤ 640
  simp only [HEIGHT]
  omega

theorem Jumping.applyCrash_clamped (p : Player) (b : Block)
    (hy : p.y ≤ Jumping.GROUND_LEVEL) (hh : p.height = 10)
    (hby : b.y ≤ 640) (hbh : b.height = 10) :
    (Jumping.applyCrash p b).y ≤ Jumping.GROUND_LEVEL ∧ (Jumping.applyCrash p b).height = 10 := by
  unfold Jumping.applyCrash Jumping.correct
  simp only [Jumping.GROUND_LEVEL, HEIGHT] at hy ⊢
  cases Jumping.checkCrash b p <;>
    simp only [Player.setY, Player.setGravity, Player.move] <;> omega

theorem Jumping.blockLoop_clamped (blocks : List Block)
    (hbs : ∀ b ∈ blocks, b.y ≤ 640 ∧ b.height = 10) (p : Player)
    (hy : p.y ≤ Jumping.GROUND_LEVEL) (hh : p.height = 10) :
    (Jumping.blockLoop p blocks).y ≤ Jumping.GROUND_LEVEL ∧
      (Jumping.blockLoop p blocks).height = 10 := by
  induction blocks generalizing p with
  | nil => exact ⟨hy, hh⟩
  | cons b rest ih =>
    have hb := hbs b (List.mem_cons_self b rest)
    have hstep := Jumping.applyCrash_clamped p b hy hh hb.1 hb.2
    exact ih (fun c hc => hbs c (List.mem_cons_of_mem b hc)) _ hstep.1 hstep.2

theorem Jumping.physics_clamped (left right : Bool) (p : Player) :
    (Jumping.physics left right p).y ≤ Jumping.GROUND_LEVEL ∧
      (Jumping.physics left right p).height = p.height := by
  unfold Jumping.physics
  simp only [Player.setY, Player.setGravity, Player.move]
  split_ifs with h1 h2 h3 <;> dsimp only at * <;> omega

theorem Jumping.tick_clamped (p : Player) (keys : Bool × Bool) (hh : p.height = 10) :
    (Jumping.tick Jumping.scene p keys).y ≤ Jumping.GROUND_LEVEL ∧
      (Jumping.tick Jumping.scene p keys).height = 10 := by
  have hp := Jumping.physics_clamped keys.1 keys.2 p
  exact Jumping.blockLoop_clamped Jumping.scene Jumping.scene_mem _ hp.1 (hp.2.trans hh)

theorem Jumping.foldl_tick_clamped (keys : List (Bool × Bool)) (p : Player)
    (hy : p.y ≤ Jumping.GROUND_LEVEL) (hh : p.height = 10) :
    (keys.foldl (Jumping.tick Jumping.scene) p).y ≤ Jumping.GROUND_LEVEL ∧
      (keys.foldl (Jumping.tick Jumping.scene) p).height = 10 := by
  induction keys generalizing p with
  | nil => exact ⟨hy, hh⟩
  | cons k rest ih =>
    have hstep := Jumping.tick_clamped p k hh
    exact ih _ hstep.1 hstep.2

/-- C4: in `2_jumping.cpp`, from `Player(100, GROUND_LEVEL)` and the ten-block
scene, after any finite sequence of key states (hence after every tick of any
run) the player's y is at most `GROUND_LEVEL = 660`; the player is 10 high, so
its bottom edge `y + 10` is at most the ground boundary `HEIGHT - 50 = 670`. -/
theorem c4_ground_clamp (keys : List (Bool × Bool)) :
    (Jumping.run keys).y ≤ Jumping.GROUND_LEVEL ∧ Jumping.GROUND_LEVEL = 660 ∧
      (Jumping.run keys).height = 10 ∧
      (Jumping.run keys).y + 10 ≤ HEIGHT - 50 ∧ HEIGHT - 50 = 670 := by
  have h := Jumping.foldl_tick_clamped keys (Jumping.newPlayer 100 Jumping.GROUND_LEVEL)
    (le_refl _) rfl
  unfold Jumping.run
  refine ⟨h.1, by decide, h.2, ?_, by decide⟩
  have h1 := h.1
  generalize List.foldl (Jumping.tick Jumping.scene)
    (Jumping.newPlayer 100 Jumping.GROUND_LEVEL) keys = q at h1 ⊢
  simp only [Jumping.GROUND_LEVEL, HEIGHT] at h1 ⊢
  omega

/-! ## Order dependence of the block loop -/

/-- C5 (as stated, refuted): the 10 x 10 player at (100, 100) overlaps
A = (100, 105, 50, 10), classified `TOP`, and B = (100, 95, 50, 10), classified
`BOTTOM`; the loop over [A, B] ends in (100, 85) with velocity 0, whereas the
correction of B alone gives (100, 105) with velocity -10. -/
theorem c5_not_only_later_block :
    aabbOverlap (Jumping.newPlayer 100 100) ⟨100, 105, 50, 10⟩ ∧
    aabbOverlap (Jumping.newPlayer 100 100) ⟨100, 95, 50, 10⟩ ∧
    Jumping.checkCrash ⟨100, 105, 50, 10⟩ (Jumping.newPlayer 100 100) = .TOP ∧
    Jumping.checkCrash ⟨100, 95, 50, 10⟩ (Jumping.newPlayer 100 100) = .BOTTOM ∧
    Jumping.blockLoop (Jumping.newPlayer 100 100) [⟨100, 105, 50, 10⟩, ⟨100, 95, 50, 10⟩]
      = ⟨100, 85, 0, 10, 10⟩ ∧
    Jumping.correct .BOTTOM (Jumping.newPlayer 100 100) ⟨100, 95, 50, 10⟩
      = ⟨100, 105, -10, 10, 10⟩ ∧
    Jumping.blockLoop (Jumping.newPlayer 100 100) [⟨100, 105, 50, 10⟩, ⟨100, 95, 50, 10⟩]
      ≠ Jumping.correct (Jumping.checkCrash ⟨100, 95, 50, 10⟩ (Jumping.newPlayer 100 100))
          (Jumping.newPlayer 100 100) ⟨100, 95, 50, 10⟩ := by
  decide

theorem Jumping.applyCrash_fields (p : Player) (A : Block) :
    (Jumping.applyCrash p A).width = p.width ∧ (Jumping.applyCrash p A).height = p.height ∧
    (Jumping.checkCrash A p ≠ .LEFT → Jumping.checkCrash A p ≠ .RIGHT →
      (Jumping.applyCrash p A).x = p.x) := by
  unfold Jumping.applyCrash Jumping.correct
  cases Jumping.checkCrash A p <;> simp [Player.setY, Player.setGravity, Player.move]

theorem ImageGame.image_applyCrash_fields (p : Player) (A : Block) :
    (ImageGame.applyCrash p A).width = p.width ∧ (ImageGame.applyCrash p A).height = p.height ∧
    (ImageGame.checkCrash A p ≠ .LEFT → ImageGame.checkCrash A p ≠ .RIGHT →
      (ImageGame.applyCrash p A).x = p.x) := by
  unfold ImageGame.applyCrash ImageGame.correct
  cases ImageGame.checkCrash A p <;> simp [Player.setY, Player.setGravity, Player.move]

theorem Jumping.correct_vertical (c : CrashCode) (hc : c = .TOP ∨ c = .BOTTOM)
    (p q : Player) (B : Block) (hx : q.x = p.x) (hw : q.width = p.width)
    (hh : q.height = p.height) : Jumping.correct c q B = Jumping.correct c p B := by
  cases p; cases q
  simp only at hx hw hh
  subst hx hw hh
  rcases hc with rfl | rfl <;> rfl

theorem ImageGame.image_correct_vertical (c : CrashCode) (hc : c = .TOP ∨ c = .BOTTOM)
    (p q : Player) (B : Block) (hx : q.x = p.x) (hw : q.width = p.width)
    (hh : q.height = p.height) : ImageGame.correct c q B = ImageGame.correct c p B := by
  cases p; cases q
  simp only at hx hw hh
  subst hx hw hh
  rcases hc with rfl | rfl <;> rfl

/-- C5 (amended): the loop over [A, B] classifies B against the state already
corrected for A. When that classification `c` is `TOP` or `BOTTOM`, the final y
and velocity are the ones the correction of B for `c` sets (B overrides A) and
x is the one left by A; if moreover A was not classified `LEFT` or `RIGHT`, the
final state is the pre-loop state with only the correction of B for `c`
applied. This holds in `2_jumping.cpp` and in `5_image.cpp`. -/
theorem c5_last_block_wins (p : Player) (A B : Block) (c : CrashCode)
    (hc : c = .TOP ∨ c = .BOTTOM) :
    (Jumping.checkCrash B (Jumping.applyCrash p A) = c →
      (Jumping.blockLoop p [A, B]).y = (Jumping.correct c p B).y ∧
      (Jumping.blockLoop p [A, B]).gravity = (Jumping.correct c p B).gravity ∧
      (Jumping.blockLoop p [A, B]).x = (Jumping.applyCrash p A).x ∧
      (Jumping.checkCrash A p ≠ .LEFT → Jumping.checkCrash A p ≠ .RIGHT →
        Jumping.blockLoop p [A, B] = Jumping.correct c p B)) ∧
    (ImageGame.checkCrash B (ImageGame.applyCrash p A) = c →
      (ImageGame.blockLoop p [A, B]).y = (ImageGame.correct c p B).y ∧
      (ImageGame.blockLoop p [A, B]).gravity = (ImageGame.correct c p B).gravity ∧
      (ImageGame.blockLoop p [A, B]).x = (ImageGame.applyCrash p A).x ∧
      (ImageGame.checkCrash A p ≠ .LEFT → ImageGame.checkCrash A p ≠ .RIGHT →
        ImageGame.blockLoop p [A, B] = ImageGame.correct c p B)) := by
  constructor
  · intro hB
    have hf := Jumping.applyCrash_fields p A
    have hloop : Jumping.blockLoop p [A, B] = Jumping.correct c (Jumping.applyCrash p A) B := by
      show Jumping.applyCrash (Jumping.applyCrash p A) B = _
      rw [Jumping.applyCrash, hB]
    rw [hloop]
    refine ⟨?_, ?_, ?_, ?_⟩
    · rcases hc with rfl | rfl <;>
        simp [Jumping.correct, Player.setY, Player.setGravity, hf.2.1]
    · rcases hc with rfl | rfl <;> simp [Jumping.correct, Player.setY, Player.setGravity]
    · rcases hc with rfl | rfl <;> simp [Jumping.correct, Player.setY, Player.setGravity]
    · intro hl hr
      exact Jumping.correct_vertical c hc p _ B (hf.2.2 hl hr) hf.1 hf.2.1
  · intro hB
    have hf := ImageGame.image_applyCrash_fields p A
    have hloop :
        ImageGame.blockLoop p [A, B] = ImageGame.correct c (ImageGame.applyCrash p A) B := by
      show ImageGame.applyCrash (ImageGame.applyCrash p A) B = _
      rw [ImageGame.applyCrash, hB]
    rw [hloop]
    refine ⟨?_, ?_, ?_, ?_⟩
    · rcases hc with rfl | rfl <;>
        simp [ImageGame.correct, Player.setY, Player.setGravity, hf.2.1]
    · rcases hc with rfl | rfl <;> simp [ImageGame.correct, Player.setY, Player.setGravity]
    · rcases hc with rfl | rfl <;> simp [ImageGame.correct, Player.setY, Player.setGravity]
    · intro hl hr
      exact ImageGame.image_correct_vertical c hc p _ B (hf.2.2 hl hr) hf.1 hf.2.1

/-- C5 (witness): the 10 x 10 player at (100, 100) overlaps A = (100, 110, 50, 10),
classified `TOP`, and B = (100, 95, 50, 10), classified `BOTTOM` before and
after the correction of A; the loop ends in the pre-loop state with only the
`BOTTOM` correction of B applied. -/
theorem c5_last_block_wins_witness :
    aabbOverlap (Jumping.newPlayer 100 100) ⟨100, 110, 50, 10⟩ ∧
    aabbOverlap (Jumping.newPlayer 100 100) ⟨100, 95, 50, 10⟩ ∧
    Jumping.checkCrash ⟨100, 110, 50, 10⟩ (Jumping.newPlayer 100 100) = .TOP ∧
    Jumping.checkCrash ⟨100, 95, 50, 10⟩ (Jumping.newPlayer 100 100) = .BOTTOM ∧
    Jumping.blockLoop (Jumping.newPlayer 100 100) [⟨100, 110, 50, 10⟩, ⟨100, 95, 50, 10⟩]
      = Jumping.correct .BOTTOM (Jumping.newPlayer 100 100) ⟨100, 95, 50, 10⟩ ∧
    ImageGame.blockLoop (Jumping.newPlayer 100 100) [⟨100, 110, 50, 10⟩, ⟨100, 95, 50, 10⟩]
      = ImageGame.correct .BOTTOM (Jumping.newPlayer 100 100) ⟨100, 95, 50, 10⟩ :=
  have h := c5_last_block_wins (Jumping.newPlayer 100 100) ⟨100, 110, 50, 10⟩
    ⟨100, 95, 50, 10⟩ .BOTTOM (Or.inr rfl)
  ⟨by decide, by decide, by decide, by decide,
    (h.1 (by decide)).2.2.2 (by decide) (by decide),
    (h.2 (by decide)).2.2.2 (by decide) (by decide)⟩

/-! ## The vertical corrections -/

/-- C6 (as stated, refuted): in `5_image.cpp` a 20 x 20 player at (100, 100)
against the block (100, 95, 50, 10) is classified `BOTTOM` and the correction
leaves the velocity at 0, not at `BOUND_GRAVITY`. -/
theorem c6_image_bottom_velocity_zero :
    ImageGame.checkCrash ⟨100, 95, 50, 10⟩ ⟨100, 100, 1, 20, 20⟩ = .BOTTOM ∧
    ImageGame.applyCrash ⟨100, 100, 1, 20, 20⟩ ⟨100, 95, 50, 10⟩ = ⟨100, 105, 0, 20, 20⟩ ∧
    (ImageGame.applyCrash ⟨100, 100, 1, 20, 20⟩ ⟨100, 95, 50, 10⟩).gravity ≠ BOUND_GRAVITY := by
  decide

/-- C6 (amended): whenever `checkCrash` returns `BOTTOM` for a block, after the
correction y equals `block.y + block.height` and x is unchanged; the velocity
equals `BOUND_GRAVITY` (-10) in `2_jumping.cpp` and 0 in `5_image.cpp`. -/
theorem c6_bottom_correction (p : Player) (b : Block)
    (hJ : Jumping.checkCrash b p = .BOTTOM) (hI : ImageGame.checkCrash b p = .BOTTOM) :
    ((Jumping.applyCrash p b).y = b.y + b.height ∧ (Jumping.applyCrash p b).x = p.x ∧
      (Jumping.applyCrash p b).gravity = BOUND_GRAVITY ∧ BOUND_GRAVITY = -10) ∧
    ((ImageGame.applyCrash p b).y = b.y + b.height ∧ (ImageGame.applyCrash p b).x = p.x ∧
      (ImageGame.applyCrash p b).gravity = 0) := by
  unfold Jumping.applyCrash ImageGame.applyCrash
  rw [hJ, hI]
  exact ⟨⟨rfl, rfl, rfl, rfl⟩, rfl, rfl, rfl⟩

/-- C6 (witness): the player at (100, 100) under the block (100, 95, 50, 10). -/
theorem c6_bottom_correction_witness :
    Jumping.checkCrash ⟨100, 95, 50, 10⟩ (Jumping.newPlayer 100 100) = .BOTTOM ∧
    (Jumping.applyCrash (Jumping.newPlayer 100 100) ⟨100, 95, 50, 10⟩).gravity = -10 ∧
    (ImageGame.applyCrash (Jumping.newPlayer 100 100) ⟨100, 95, 50, 10⟩).gravity = 0 :=
  have h := c6_bottom_correction (Jumping.newPlayer 100 100) ⟨100, 95, 50, 10⟩
    (by decide) (by decide)
  ⟨by decide, h.1.2.2.1, h.2.2.2⟩

/-- C7: whenever `checkCrash` returns `TOP` for a block, after the correction y
equals `block.y - player.height`, x is unchanged, and the velocity equals 0 in
`2_jumping.cpp` and `BOUND_GRAVITY` (-10) in `5_image.cpp`. -/
theorem c7_top_correction (p : Player) (b : Block)
    (hJ : Jumping.checkCrash b p = .TOP) (hI : ImageGame.checkCrash b p = .TOP) :
    ((Jumping.applyCrash p b).y = b.y - p.height ∧ (Jumping.applyCrash p b).x = p.x ∧
      (Jumping.applyCrash p b).gravity = 0) ∧
    ((ImageGame.applyCrash p b).y = b.y - p.height ∧ (ImageGame.applyCrash p b).x = p.x ∧
      (ImageGame.applyCrash p b).gravity = BOUND_GRAVITY ∧ BOUND_GRAVITY = -10) := by
  unfold Jumping.applyCrash ImageGame.applyCrash
  rw [hJ, hI]
  exact ⟨⟨rfl, rfl, rfl⟩, rfl, rfl, rfl, rfl⟩

/-- C7 (witness): the player at (100, 100) landing on the block (100, 105, 50, 10);
its bottom edge 110 lies in the block's span and y becomes 95. -/
theorem c7_top_correction_witness :
    Jumping.checkCrash ⟨100, 105, 50, 10⟩ (Jumping.newPlayer 100 100) = .TOP ∧
    (Jumping.applyCrash (Jumping.newPlayer 100 100) ⟨100, 105, 50, 10⟩).y = 105 - 10 ∧
    (Jumping.applyCrash (Jumping.newPlayer 100 100) ⟨100, 105, 50, 10⟩).gravity = 0 ∧
    (ImageGame.applyCrash (Jumping.newPlayer 100 100) ⟨100, 105, 50, 10⟩).gravity = -10 :=
  have h := c7_top_correction (Jumping.newPlayer 100 100) ⟨100, 105, 50, 10⟩
    (by decide) (by decide)
  ⟨by decide, h.1.1, h.1.2.2, h.2.2.2.1⟩

/-! ## RGB565 -/

set_option maxRecDepth 100000 in
theorem and_F8_eq : ∀ r : Fin 256, (r.val &&& 0xF8) <<< 8 = 2 ^ 11 * (r.val / 8) := by
  decide

set_option maxRecDepth 100000 in
theorem and_FC_eq : ∀ g : Fin 256, (g.val &&& 0xFC) <<< 3 = 2 ^ 5 * (g.val / 4) := by
  decide

theorem convertTo_eq_sum (c : Color) (hc : c.valid) :
    convertTo c = 2048 * (c.r / 8) + 32 * (c.g / 4) + c.b / 8 := by
  obtain ⟨hr, hg, hb, _⟩ := hc
  have h1 := and_F8_eq ⟨c.r, hr⟩
  have h2 := and_FC_eq ⟨c.g, hg⟩
  simp only at h1 h2
  unfold convertTo
  rw [h1, h2, Nat.shiftRight_eq_div_pow]
  have hg5 : 2 ^ 5 * (c.g / 4) < 2 ^ 11 := by omega
  have hb3 : c.b / 2 ^ 3 < 2 ^ 5 := by omega
  rw [← Nat.mul_add_lt_is_or hg5]
  have e : 2 ^ 11 * (c.r / 8) + 2 ^ 5 * (c.g / 4) = 2 ^ 5 * (64 * (c.r / 8) + c.g / 4) := by
    omega
  rw [e, ← Nat.mul_add_lt_is_or hb3]
  omega

theorem and_31_eq_mod (x : Nat) : x &&& 31 = x % 32 :=
  Nat.and_pow_two_sub_one_eq_mod x 5

theorem and_63_eq_mod (x : Nat) : x &&& 63 = x % 64 :=
  Nat.and_pow_two_sub_one_eq_mod x 6

/-- C8: for colours with 8-bit channels the RGB565 pixel computed by
`convertTo` (and by `convertTo16Bit`) fits in 16 bits and decodes to the top
5/6/5 bits of r/g/b; two colours encode to the same pixel exactly when they
agree on those top bits, whatever their low-order bits and alpha. -/
theorem c8_rgb565_round_trip (c d : Color) (hc : c.valid) (hd : d.valid) :
    convertTo c < 2 ^ 16 ∧
    (convertTo c >>> 11) &&& 31 = c.r >>> 3 ∧
    (convertTo c >>> 5) &&& 63 = c.g >>> 2 ∧
    convertTo c &&& 31 = c.b >>> 3 ∧
    (convertTo c = convertTo d ↔
      (c.r >>> 3 = d.r >>> 3 ∧ c.g >>> 2 = d.g >>> 2 ∧ c.b >>> 3 = d.b >>> 3)) ∧
    convertTo16Bit c = convertTo c := by
  have ec := convertTo_eq_sum c hc
  have ed := convertTo_eq_sum d hd
  obtain ⟨hr, hg, hb, _⟩ := hc
  obtain ⟨hr2, hg2, hb2, _⟩ := hd
  simp only [and_31_eq_mod, and_63_eq_mod, Nat.shiftRight_eq_div_pow]
  rw [ec, ed]
  refine ⟨by omega, by omega, by omega, by omega, ⟨fun h => by omega, fun h => by omega⟩, ?_⟩
  rw [← ec]
  rfl

/-- C8 (witness): sky blue (135, 206, 235) and (130, 204, 239, 255) share the
top bits 16/51/29 and encode to the same pixel. -/
theorem c8_rgb565_round_trip_witness :
    Color.valid ⟨135, 206, 235, 0⟩ ∧ Color.valid ⟨130, 204, 239, 255⟩ ∧
    convertTo ⟨135, 206, 235, 0⟩ = convertTo ⟨130, 204, 239, 255⟩ ∧
    (convertTo ⟨135, 206, 235, 0⟩ >>> 11) &&& 31 = 135 >>> 3 :=
  have h := c8_rgb565_round_trip ⟨135, 206, 235, 0⟩ ⟨130, 204, 239, 255⟩
    (by decide) (by decide)
  ⟨by decide, by decide, h.2.2.2.2.1.2 (by decide), h.2.1⟩

/-! ## Clipped rectangle fill -/

theorem foldl_invariant {α β : Type} (f : α → β → α) (P : α → Prop) (l : List β)
    (hstep : ∀ m k, k ∈ l → P m → P (f m k)) (m : α) (h0 : P m) : P (l.foldl f m) := by
  induction l generalizing m with
  | nil => exact h0
  | cons k rest ih =>
    exact ih (fun m2 k2 hk2 => hstep m2 k2 (List.mem_cons_of_mem k hk2)) _
      (hstep m k (List.mem_cons_self k rest) h0)

theorem foldl_establish {α β : Type} (f : α → β → α) (Q : α → Prop) (l : List β) (k0 : β)
    (hk0 : k0 ∈ l) (hest : ∀ m, Q (f m k0))
    (hstep : ∀ m k, k ∈ l → Q m → Q (f m k)) (m : α) : Q (l.foldl f m) := by
  induction l generalizing m with
  | nil => cases hk0
  | cons k rest ih =>
    have hrest : ∀ m2 k2, k2 ∈ rest → Q m2 → Q (f m2 k2) :=
      fun m2 k2 hk2 => hstep m2 k2 (List.mem_cons_of_mem k hk2)
    rcases List.mem_cons.1 hk0 with rfl | hin
    · exact foldl_invariant f Q rest hrest _ (hest m)
    · exact ih hin hrest _

theorem store16_other (m : Mem) (loc : Int) (v : Nat) (a : Int)
    (h1 : a ≠ loc) (h2 : a ≠ loc + 1) : store16 m loc v a = m a := by
  unfold store16
  rw [if_neg h1, if_neg h2]

theorem store16_low (m : Mem) (loc : Int) (v : Nat) : store16 m loc v loc = v % 256 := by
  unfold store16
  rw [if_pos rfl]

theorem store16_high (m : Mem) (loc : Int) (v : Nat) :
    store16 m loc v (loc + 1) = v / 256 % 256 := by
  unfold store16
  rw [if_neg (by omega), if_pos rfl]

theorem ImageGame.fillRectPixel_frame (vinfo : VarScreenInfo) (finfo : FixScreenInfo)
    (x y : Int) (color : Nat) (j i : Nat) (m : Mem) (a : Int)
    (h : onSurface (x + i) (y + j) →
      a ≠ location vinfo finfo (x + i) (y + j) ∧ a ≠ location vinfo finfo (x + i) (y + j) + 1) :
    ImageGame.fillRectPixel vinfo finfo x y color j m i a = m a := by
  unfold ImageGame.fillRectPixel
  dsimp only
  split_ifs with hclip hcol
  · rfl
  · have hs : onSurface (x + i) (y + j) := by
      unfold onSurface; omega
    exact store16_other m _ _ a (h hs).1 (h hs).2
  · rfl

theorem ImageGame.fillRect_frame (fb : Mem) (vinfo : VarScreenInfo) (finfo : FixScreenInfo)
    (x y w h : Int) (color : Nat) (a : Int)
    (hno : ∀ i j : Nat, i < w.toNat → j < h.toNat → onSurface (x + i) (y + j) →
      a ≠ location vinfo finfo (x + i) (y + j) ∧ a ≠ location vinfo finfo (x + i) (y + j) + 1) :
    ImageGame.fillRect fb vinfo finfo x y w h color a = fb a := by
  unfold ImageGame.fillRect
  refine foldl_invariant _ (fun m => m a = fb a) _ ?_ fb rfl
  intro m j hj hm
  unfold ImageGame.fillRectRow
  refine foldl_invariant _ (fun m2 => m2 a = fb a) _ ?_ m hm
  intro m2 i hi hm2
  rw [ImageGame.fillRectPixel_frame vinfo finfo x y color j i m2 a
    (hno i j (List.mem_range.1 hi) (List.mem_range.1 hj))]
  exact hm2

theorem ImageGame.fillRect_color_zero (fb : Mem) (vinfo : VarScreenInfo) (finfo : FixScreenInfo)
    (x y w h : Int) : ImageGame.fillRect fb vinfo finfo x y w h 0 = fb := by
  unfold ImageGame.fillRect
  refine foldl_invariant _ (fun m => m = fb) _ ?_ fb rfl
  intro m j _ hm
  unfold ImageGame.fillRectRow
  refine foldl_invariant _ (fun m2 => m2 = fb) _ ?_ m hm
  intro m2 i _ hm2
  unfold ImageGame.fillRectPixel
  dsimp only
  split_ifs <;> first | exact hm2 | contradiction

theorem ImageGame.fillRect_changed (fb : Mem) (vinfo : VarScreenInfo) (finfo : FixScreenInfo)
    (x y w h : Int) (color : Nat) (a : Int)
    (ha : ImageGame.fillRect fb vinfo finfo x y w h color a ≠ fb a) :
    ∃ px py : Int, inRect x y w h px py ∧ onSurface px py ∧
      (a = location vinfo finfo px py ∨ a = location vinfo finfo px py + 1) := by
  by_contra hne
  apply ha
  apply ImageGame.fillRect_frame
  intro i j hi hj hs
  have hr : inRect x y w h (x + i) (y + j) := by
    unfold inRect; omega
  constructor
  · intro e; exact hne ⟨x + i, y + j, hr, hs, Or.inl e⟩
  · intro e; exact hne ⟨x + i, y + j, hr, hs, Or.inr e⟩

theorem location_bounds (vinfo : VarScreenInfo) (finfo : FixScreenInfo) (px py : Int)
    (hs : onSurface px py)
    (hstride : (WIDTH + vinfo.xoffset) * ((vinfo.bits_per_pixel / 8 : Nat) : Int)
      ≤ finfo.line_length) :
    0 ≤ location vinfo finfo px py ∧
    location vinfo finfo px py + ((vinfo.bits_per_pixel / 8 : Nat) : Int)
      ≤ (HEIGHT + vinfo.yoffset) * finfo.line_length := by
  unfold onSurface at hs
  unfold location
  simp only [WIDTH, HEIGHT] at hs hstride ⊢
  have hB : (0 : Int) ≤ ((vinfo.bits_per_pixel / 8 : Nat) : Int) := Int.ofNat_nonneg _
  have hxo : (0 : Int) ≤ (vinfo.xoffset : Int) := Int.ofNat_nonneg _
  have hyo : (0 : Int) ≤ (vinfo.yoffset : Int) := Int.ofNat_nonneg _
  have hL : (0 : Int) ≤ (finfo.line_length : Int) := Int.ofNat_nonneg _
  generalize ((vinfo.bits_per_pixel / 8 : Nat) : Int) = B at hstride hB ⊢
  generalize (vinfo.xoffset : Int) = xo at hstride hxo ⊢
  generalize (vinfo.yoffset : Int) = yo at hyo ⊢
  generalize (finfo.line_length : Int) = L at hstride hL ⊢
  have hU0 : 0 ≤ (px + xo) * B := mul_nonneg (by omega) hB
  have hU1 : (px + xo) * B ≤ (1279 + xo) * B := mul_le_mul_of_nonneg_right (by omega) hB
  have hU2 : (1280 + xo) * B = (1279 + xo) * B + B := by ring
  have hV0 : 0 ≤ (py + yo) * L := mul_nonneg (by omega) hL
  have hV1 : (py + yo) * L ≤ (719 + yo) * L := mul_le_mul_of_nonneg_right (by omega) hL
  have hV2 : (720 + yo) * L = (719 + yo) * L + L := by ring
  generalize (px + xo) * B = U at hU0 hU1 ⊢
  generalize (py + yo) * L = V at hV0 hV1 ⊢
  rw [hV2]
  rw [hU2] at hstride
  generalize (1279 + xo) * B = U1 at hU1 hstride
  generalize (719 + yo) * L = V1 at hV1 ⊢
  omega

theorem ImageGame.fillRectPixel_keeps (vinfo : VarScreenInfo) (finfo : FixScreenInfo)
    (x y : Int) (color : Nat) (j i : Nat) (m : Mem) (px py : Int)
    (hno : NoOverlap vinfo finfo) (hs : onSurface px py)
    (hm : cellHolds m (location vinfo finfo px py) color) :
    cellHolds (ImageGame.fillRectPixel vinfo finfo x y color j m i)
      (location vinfo finfo px py) color := by
  unfold ImageGame.fillRectPixel
  dsimp only
  split_ifs with hclip hcol
  · exact hm
  · have hq : onSurface (x + i) (y + j) := by
      unfold onSurface; omega
    by_cases hsame : x + (i : Int) = px ∧ y + (j : Int) = py
    · rw [hsame.1, hsame.2]
      exact ⟨store16_low _ _ _, store16_high _ _ _⟩
    · have hdis := hno (x + i) (y + j) px py hq hs (by omega)
      unfold cellHolds at hm ⊢
      rw [store16_other _ _ _ _ (by omega) (by omega),
        store16_other _ _ _ _ (by omega) (by omega)]
      exact hm
  · exact hm

theorem ImageGame.fillRectPixel_sets (vinfo : VarScreenInfo) (finfo : FixScreenInfo)
    (x y : Int) (color : Nat) (j i : Nat) (m : Mem)
    (hs : onSurface (x + i) (y + j)) (hc0 : color ≠ 0) :
    cellHolds (ImageGame.fillRectPixel vinfo finfo x y color j m i)
      (location vinfo finfo (x + i) (y + j)) color := by
  unfold ImageGame.fillRectPixel
  dsimp only
  unfold onSurface at hs
  rw [if_neg (by omega), if_pos hc0]
  exact ⟨store16_low _ _ _, store16_high _ _ _⟩

theorem ImageGame.fillRect_written (fb : Mem) (vinfo : VarScreenInfo) (finfo : FixScreenInfo)
    (x y w h : Int) (color : Nat) (px py : Int) (hc0 : color ≠ 0)
    (hno : NoOverlap vinfo finfo) (hr : inRect x y w h px py) (hs : onSurface px py) :
    cellHolds (ImageGame.fillRect fb vinfo finfo x y w h color)
      (location vinfo finfo px py) color := by
  unfold inRect at hr
  have hi : (px - x).toNat ∈ List.range w.toNat := List.mem_range.2 (by omega)
  have hj : (py - y).toNat ∈ List.range h.toNat := List.mem_range.2 (by omega)
  have hpx : x + ((px - x).toNat : Int) = px := by omega
  have hpy : y + ((py - y).toNat : Int) = py := by omega
  unfold ImageGame.fillRect
  refine foldl_establish _ (fun m => cellHolds m (location vinfo finfo px py) color) _
    (py - y).toNat hj ?_ ?_ fb
  · intro m
    unfold ImageGame.fillRectRow
    refine foldl_establish _ (fun m2 => cellHolds m2 (location vinfo finfo px py) color) _
      (px - x).toNat hi ?_ ?_ m
    · intro m2
      have hsets := ImageGame.fillRectPixel_sets vinfo finfo x y color (py - y).toNat
        (px - x).toNat m2 (by rw [hpx, hpy]; exact hs) hc0
      rw [hpx, hpy] at hsets
      exact hsets
    · intro m2 i _ hm2
      exact ImageGame.fillRectPixel_keeps vinfo finfo x y color _ i m2 px py hno hs hm2
  · intro m j _ hm
    unfold ImageGame.fillRectRow
    refine foldl_invariant _ (fun m2 => cellHolds m2 (location vinfo finfo px py) color) _ ?_ m hm
    intro m2 i _ hm2
    exact ImageGame.fillRectPixel_keeps vinfo finfo x y color j i m2 px py hno hs hm2

theorem load16_of_cellHolds (m : Mem) (loc : Int) (color : Nat) (hc : color < 65536)
    (h : cellHolds m loc color) : load16 m loc = color := by
  unfold load16
  rw [h.1, h.2]
  omega

theorem noOverlap_of_geometry (vinfo : VarScreenInfo) (finfo : FixScreenInfo)
    (hB : 2 ≤ vinfo.bits_per_pixel / 8)
    (hstride : (WIDTH + vinfo.xoffset) * ((vinfo.bits_per_pixel / 8 : Nat) : Int)
      ≤ finfo.line_length)
    (hsize : (HEIGHT + vinfo.yoffset) * (finfo.line_length : Int) ≤ 2 ^ 32) :
    NoOverlap vinfo finfo := by
  intro px py qx qy hp hq hne
  unfold onSurface at hp hq
  unfold location
  simp only [WIDTH, HEIGHT] at hp hq hstride hsize ⊢
  have hB2 : (2 : Int) ≤ ((vinfo.bits_per_pixel / 8 : Nat) : Int) := by exact_mod_cast hB
  have hxo : (0 : Int) ≤ (vinfo.xoffset : Int) := Int.ofNat_nonneg _
  have hyo : (0 : Int) ≤ (vinfo.yoffset : Int) := Int.ofNat_nonneg _
  have hL : (0 : Int) ≤ (finfo.line_length : Int) := Int.ofNat_nonneg _
  generalize ((vinfo.bits_per_pixel / 8 : Nat) : Int) = B at hstride hB2 ⊢
  generalize (vinfo.xoffset : Int) = xo at hstride hxo ⊢
  generalize (vinfo.yoffset : Int) = yo at hyo hsize ⊢
  generalize (finfo.line_length : Int) = L at hstride hL hsize ⊢
  have hB0 : 0 ≤ B := by omega
  have hxoB : 0 ≤ xo * B := mul_nonneg hxo hB0
  have hLB : 1280 * B ≤ L := by nlinarith
  -- the unwrapped byte offsets stay below 2 ^ 32
  have bound : ∀ rx ry : Int, 0 ≤ rx → rx < 1280 → 0 ≤ ry → ry < 720 →
      0 ≤ (rx + xo) * B + (ry + yo) * L ∧ (rx + xo) * B + (ry + yo) * L < 2 ^ 32 := by
    intro rx ry h1 h2 h3 h4
    have hU0 : 0 ≤ (rx + xo) * B := mul_nonneg (by omega) hB0
    have hV0 : 0 ≤ (ry + yo) * L := mul_nonneg (by omega) hL
    have hU1 : (rx + xo) * B ≤ (1279 + xo) * B := mul_le_mul_of_nonneg_right (by omega) hB0
    have hV1 : (ry + yo) * L ≤ (719 + yo) * L := mul_le_mul_of_nonneg_right (by omega) hL
    constructor
    · linarith
    · nlinarith
  have ep := bound px py hp.1 hp.2.1 hp.2.2.1 hp.2.2.2
  have eq := bound qx qy hq.1 hq.2.1 hq.2.2.1 hq.2.2.2
  rw [Int.emod_eq_of_lt ep.1 ep.2, Int.emod_eq_of_lt eq.1 eq.2]
  have hdx1 : (-1279) * B ≤ (qx - px) * B := mul_le_mul_of_nonneg_right (by omega) hB0
  have hdx2 : (-1279) * B ≤ (px - qx) * B := mul_le_mul_of_nonneg_right (by omega) hB0
  rcases lt_trichotomy py qy with hlt | heq | hgt
  · left
    have hdy : 1 * L ≤ (qy - py) * L := mul_le_mul_of_nonneg_right (by omega) hL
    nlinarith
  · subst heq
    rcases lt_trichotomy px qx with hlt | heq | hgt
    · left
      have hdx : 1 * B ≤ (qx - px) * B := mul_le_mul_of_nonneg_right (by omega) hB0
      nlinarith
    · exfalso; omega
    · right
      have hdx : 1 * B ≤ (px - qx) * B := mul_le_mul_of_nonneg_right (by omega) hB0
      nlinarith
  · right
    have hdy : 1 * L ≤ (py - qy) * L := mul_le_mul_of_nonneg_right (by omega) hL
    nlinarith

theorem noOverlap_rgb565 : NoOverlap ⟨0, 0, 16⟩ ⟨2560⟩ :=
  noOverlap_of_geometry ⟨0, 0, 16⟩ ⟨2560⟩ (by decide) (by decide) (by decide)

/-- C9 (as stated, refuted): on a 1280 x 720 RGB565 surface whose bytes are all
1, `fillRect(0, 0, 1, 1, 0)` leaves pixel (0, 0) at 257: the pixel value 0 is
never written. -/
theorem c9_color_zero_not_written :
    NoOverlap ⟨0, 0, 16⟩ ⟨2560⟩ ∧ inRect 0 0 1 1 0 0 ∧ onSurface 0 0 ∧
    load16 (ImageGame.fillRect (fun _ => 1) ⟨0, 0, 16⟩ ⟨2560⟩ 0 0 1 1 0)
      (location ⟨0, 0, 16⟩ ⟨2560⟩ 0 0) = 257 ∧
    load16 (ImageGame.fillRect (fun _ => 1) ⟨0, 0, 16⟩ ⟨2560⟩ 0 0 1 1 0)
      (location ⟨0, 0, 16⟩ ⟨2560⟩ 0 0) ≠ 0 :=
  ⟨noOverlap_rgb565, by decide, by decide, by decide, by decide⟩

/-- C9 (amended): for every x, y, w, h and every non-zero 16-bit pixel value
`color`, after `fillRect(x, y, w, h, color)` of `5_image.cpp` every pixel of the
rectangle that lies on the surface holds `color`, provided the cells of distinct
surface pixels do not overlap. -/
theorem c9_fillRect_writes (fb : Mem) (vinfo : VarScreenInfo) (finfo : FixScreenInfo)
    (x y w h : Int) (color : Nat) (px py : Int)
    (hc0 : color ≠ 0) (hc : color < 2 ^ 16) (hno : NoOverlap vinfo finfo)
    (hr : inRect x y w h px py) (hs : onSurface px py) :
    load16 (ImageGame.fillRect fb vinfo finfo x y w h color) (location vinfo finfo px py)
      = color :=
  load16_of_cellHolds _ _ _ hc
    (ImageGame.fillRect_written fb vinfo finfo x y w h color px py hc0 hno hr hs)

/-- C9 (witness): filling the rectangle (-3, -2, 10, 10) with red (0xF800) on an
empty 1280 x 720 RGB565 surface; pixel (5, 7) then holds 0xF800. -/
theorem c9_fillRect_writes_witness :
    inRect (-3) (-2) 10 10 5 7 ∧ onSurface 5 7 ∧
    load16 (ImageGame.fillRect (fun _ => 0) ⟨0, 0, 16⟩ ⟨2560⟩ (-3) (-2) 10 10 0xF800)
      (location ⟨0, 0, 16⟩ ⟨2560⟩ 5 7) = 0xF800 :=
  ⟨by decide, by decide,
    c9_fillRect_writes (fun _ => 0) ⟨0, 0, 16⟩ ⟨2560⟩ (-3) (-2) 10 10 0xF800 5 7
      (by decide) (by decide) noOverlap_rgb565 (by decide) (by decide)⟩

/-- C10 (as stated, refuted): on an 8 bits-per-pixel surface with stride 1280
(so `stride >= (WIDTH + xoffset) * bytesPerPixel`) the buffer of 720 rows ends
at byte 921600; `fillRect(1279, 719, 1, 1, 257)` stores the two bytes of the
pixel at offsets 921599 and 921600, one past the end. Likewise
`fillRect(0, 0, 1, 1, 257)` changes byte 1, the address of the pixel (1, 0)
outside the rectangle. -/
theorem c10_write_past_buffer_8bpp :
    (WIDTH + ((0 : Nat) : Int)) * (((8 : Nat) / 8 : Nat) : Int) ≤ ((1280 : Nat) : Int) ∧
    (HEIGHT + ((0 : Nat) : Int)) * ((1280 : Nat) : Int) = 921600 ∧
    location ⟨0, 0, 8⟩ ⟨1280⟩ 1279 719 = 921599 ∧
    (fun _ => 0 : Mem) 921600 = 0 ∧
    ImageGame.fillRect (fun _ => 0) ⟨0, 0, 8⟩ ⟨1280⟩ 1279 719 1 1 257 921600 = 1 ∧
    ¬ inRect 0 0 1 1 1 0 ∧ onSurface 1 0 ∧ location ⟨0, 0, 8⟩ ⟨1280⟩ 1 0 = 1 ∧
    ImageGame.fillRect (fun _ => 0) ⟨0, 0, 8⟩ ⟨1280⟩ 0 0 1 1 257 1 = 1 := by
  decide

/-- C10 (amended): when a surface pixel is at least two bytes wide
(`bits_per_pixel / 8 >= 2`, the size of a stored pixel) and
`line_length >= (WIDTH + xoffset) * (bits_per_pixel / 8)`, then for every x, y,
w, h and colour `fillRect` of `5_image.cpp` changes only bytes of the two-byte
cells of pixels that lie both inside the rectangle and on the surface, and
every changed byte lies inside a buffer of `HEIGHT + yoffset` rows of
`line_length` bytes; if moreover the cells of distinct surface pixels do not
overlap, every surface pixel outside the rectangle keeps its value. -/
theorem c10_fillRect_bounds_safety (fb : Mem) (vinfo : VarScreenInfo) (finfo : FixScreenInfo)
    (x y w h : Int) (color : Nat)
    (hB : 2 ≤ vinfo.bits_per_pixel / 8)
    (hstride : (WIDTH + vinfo.xoffset) * ((vinfo.bits_per_pixel / 8 : Nat) : Int)
      ≤ finfo.line_length) :
    (∀ a : Int, ImageGame.fillRect fb vinfo finfo x y w h color a ≠ fb a →
      (∃ px py : Int, inRect x y w h px py ∧ onSurface px py ∧
        (a = location vinfo finfo px py ∨ a = location vinfo finfo px py + 1)) ∧
      0 ≤ a ∧ a < (HEIGHT + vinfo.yoffset) * finfo.line_length) ∧
    (NoOverlap vinfo finfo → ∀ qx qy : Int, onSurface qx qy → ¬ inRect x y w h qx qy →
      load16 (ImageGame.fillRect fb vinfo finfo x y w h color) (location vinfo finfo qx qy)
        = load16 fb (location vinfo finfo qx qy)) := by
  constructor
  · intro a ha
    obtain ⟨px, py, hr, hs, hloc⟩ := ImageGame.fillRect_changed fb vinfo finfo x y w h color a ha
    have hb := location_bounds vinfo finfo px py hs hstride
    have hB2 : (2 : Int) ≤ ((vinfo.bits_per_pixel / 8 : Nat) : Int) := by exact_mod_cast hB
    refine ⟨⟨px, py, hr, hs, hloc⟩, ?_, ?_⟩
    · rcases hloc with e | e <;> omega
    · rcases hloc with e | e <;> omega
  · intro hno qx qy hq hout
    have hframe : ∀ a : Int, a = location vinfo finfo qx qy ∨ a = location vinfo finfo qx qy + 1 →
        ImageGame.fillRect fb vinfo finfo x y w h color a = fb a := by
      intro a ha
      apply ImageGame.fillRect_frame
      intro i j hi hj hs
      have hr : inRect x y w h (x + i) (y + j) := by
        unfold inRect; omega
      have hne : x + (i : Int) ≠ qx ∨ y + (j : Int) ≠ qy := by
        by_contra hcon
        push_neg at hcon
        rw [hcon.1, hcon.2] at hr
        exact hout hr
      have hdis := hno (x + i) (y + j) qx qy hs hq hne
      omega
    unfold load16
    rw [hframe _ (Or.inl rfl), hframe _ (Or.inr rfl)]

/-- C10 (witness): on an empty 1280 x 720 RGB565 surface the rectangle
(1275, 715, 10, 10) reaches past the right and bottom edges; the byte at offset
1843199, the high byte of the cell of the last surface pixel (1279, 719),
changes and lies inside the 720 x 2560 byte buffer. -/
theorem c10_fillRect_bounds_safety_witness :
    ImageGame.fillRect (fun _ => 0) ⟨0, 0, 16⟩ ⟨2560⟩ 1275 715 10 10 0xF800 1843199 ≠ 0 ∧
    (1843199 : Int) < (HEIGHT + ((0 : Nat) : Int)) * ((2560 : Nat) : Int) :=
  have h := (c10_fillRect_bounds_safety (fun _ => 0) ⟨0, 0, 16⟩ ⟨2560⟩ 1275 715 10 10 0xF800
    (by decide) (by decide)).1 1843199 (by decide)
  ⟨by decide, h.2.2⟩

/-! ## Keyed blit -/

theorem ImageGame.fillRectDataPixel_frame (vinfo : VarScreenInfo) (finfo : FixScreenInfo)
    (x y w : Int) (data : Int → Nat) (j i : Nat) (m : Mem) (a : Int)
    (h : data ((j : Int) * w + (i : Int)) ≠ 0 →
      a ≠ location vinfo finfo (x + i) (y + j) ∧ a ≠ location vinfo finfo (x + i) (y + j) + 1) :
    ImageGame.fillRectDataPixel vinfo finfo x y w data j m i a = m a := by
  unfold ImageGame.fillRectDataPixel
  try dsimp only
  split_ifs with hd
  · exact store16_other m _ _ a (h hd).1 (h hd).2
  · rfl

theorem ImageGame.fillRectData_frame (fb : Mem) (vinfo : VarScreenInfo) (finfo : FixScreenInfo)
    (x y w h : Int) (data : Int → Nat) (a : Int)
    (hno : ∀ i j : Nat, i < w.toNat → j < h.toNat → data ((j : Int) * w + (i : Int)) ≠ 0 →
      a ≠ location vinfo finfo (x + i) (y + j) ∧ a ≠ location vinfo finfo (x + i) (y + j) + 1) :
    ImageGame.fillRectData fb vinfo finfo x y w h data a = fb a := by
  unfold ImageGame.fillRectData
  refine foldl_invariant _ (fun m => m a = fb a) _ ?_ fb rfl
  intro m j hj hm
  unfold ImageGame.fillRectDataRow
  refine foldl_invariant _ (fun m2 => m2 a = fb a) _ ?_ m hm
  intro m2 i hi hm2
  rw [ImageGame.fillRectDataPixel_frame vinfo finfo x y w data j i m2 a
    (hno i j (List.mem_range.1 hi) (List.mem_range.1 hj))]
  exact hm2

theorem ImageGame.fillRectDataPixel_keeps (vinfo : VarScreenInfo) (finfo : FixScreenInfo)
    (x y w : Int) (data : Int → Nat) (j i : Nat) (m : Mem) (px py : Int) (v : Nat)
    (hno : NoOverlap vinfo finfo) (hs : onSurface px py) (hq : onSurface (x + i) (y + j))
    (hne : x + (i : Int) ≠ px ∨ y + (j : Int) ≠ py)
    (hm : cellHolds m (location vinfo finfo px py) v) :
    cellHolds (ImageGame.fillRectDataPixel vinfo finfo x y w data j m i)
      (location vinfo finfo px py) v := by
  unfold ImageGame.fillRectDataPixel
  try dsimp only
  split_ifs with hd
  · have hdis := hno (x + i) (y + j) px py hq hs hne
    unfold cellHolds at hm ⊢
    rw [store16_other _ _ _ _ (by omega) (by omega),
      store16_other _ _ _ _ (by omega) (by omega)]
    exact hm
  · exact hm

theorem ImageGame.fillRectData_written (fb : Mem) (vinfo : VarScreenInfo)
    (finfo : FixScreenInfo) (x y w h : Int) (data : Int → Nat) (i0 j0 : Nat)
    (hadr : Addressable vinfo finfo x y w h) (hi0 : i0 < w.toNat) (hj0 : j0 < h.toNat)
    (hd : data ((j0 : Int) * w + (i0 : Int)) ≠ 0) :
    cellHolds (ImageGame.fillRectData fb vinfo finfo x y w h data)
      (location vinfo finfo (x + i0) (y + j0)) (data ((j0 : Int) * w + (i0 : Int))) := by
  obtain ⟨hno, hdest⟩ := hadr
  have hsurf : ∀ i j : Nat, i < w.toNat → j < h.toNat → onSurface (x + i) (y + j) :=
    fun i j hi hj => hdest _ _ (by unfold inRect; omega)
  have hs0 := hsurf i0 j0 hi0 hj0
  unfold ImageGame.fillRectData
  refine foldl_establish _ (fun m => cellHolds m (location vinfo finfo (x + i0) (y + j0))
    (data ((j0 : Int) * w + (i0 : Int)))) _ j0 (List.mem_range.2 hj0) ?_ ?_ fb
  · intro m
    unfold ImageGame.fillRectDataRow
    refine foldl_establish _ (fun m2 => cellHolds m2 (location vinfo finfo (x + i0) (y + j0))
      (data ((j0 : Int) * w + (i0 : Int)))) _ i0 (List.mem_range.2 hi0) ?_ ?_ m
    · intro m2
      unfold ImageGame.fillRectDataPixel
      try dsimp only
      rw [if_pos hd]
      exact ⟨store16_low _ _ _, store16_high _ _ _⟩
    · intro m2 i hi hm2
      by_cases hii : i = i0
      · subst hii
        unfold ImageGame.fillRectDataPixel
        try dsimp only
        rw [if_pos hd]
        exact ⟨store16_low _ _ _, store16_high _ _ _⟩
      · exact ImageGame.fillRectDataPixel_keeps vinfo finfo x y w data j0 i m2 _ _ _ hno hs0
          (hsurf i j0 (List.mem_range.1 hi) hj0) (by omega) hm2
  · intro m j hj hm
    by_cases hjj : j = j0
    · subst hjj
      unfold ImageGame.fillRectDataRow
      refine foldl_establish _ (fun m2 => cellHolds m2 (location vinfo finfo (x + i0) (y + j))
        (data ((j : Int) * w + (i0 : Int)))) _ i0 (List.mem_range.2 hi0) ?_ ?_ m
      · intro m2
        unfold ImageGame.fillRectDataPixel
        try dsimp only
        rw [if_pos hd]
        exact ⟨store16_low _ _ _, store16_high _ _ _⟩
      · intro m2 i hi hm2
        by_cases hii : i = i0
        · subst hii
          unfold ImageGame.fillRectDataPixel
          try dsimp only
          rw [if_pos hd]
          exact ⟨store16_low _ _ _, store16_high _ _ _⟩
        · exact ImageGame.fillRectDataPixel_keeps vinfo finfo x y w data j i m2 _ _ _ hno hs0
            (hsurf i j (List.mem_range.1 hi) hj0) (by omega) hm2
    · unfold ImageGame.fillRectDataRow
      refine foldl_invariant _ (fun m2 => cellHolds m2 (location vinfo finfo (x + i0) (y + j0))
        (data ((j0 : Int) * w + (i0 : Int)))) _ ?_ m hm
      intro m2 i hi hm2
      exact ImageGame.fillRectDataPixel_keeps vinfo finfo x y w data j i m2 _ _ _ hno hs0
        (hsurf i j (List.mem_range.1 hi) (List.mem_range.1 hj)) (by omega) hm2

/-- C11: keyed blit. When the destination pixels of `fillRectData(x, y, w, h, data)`
are all addressable and `data` holds 16-bit pixels, then after the call each
destination pixel (x + i, y + j), 0 <= i < w, 0 <= j < h, holds `data[j * w + i]`
if that source pixel is non-zero and its previous value if the source pixel is
the transparent key 0; every surface pixel outside the rectangle is unchanged. -/
theorem c11_fillRectData_keyed_blit (fb : Mem) (vinfo : VarScreenInfo) (finfo : FixScreenInfo)
    (x y w h : Int) (data : Int → Nat)
    (hadr : Addressable vinfo finfo x y w h) (hdata : ∀ k : Int, data k < 2 ^ 16) :
    (∀ i j : Int, 0 ≤ i → i < w → 0 ≤ j → j < h →
      load16 (ImageGame.fillRectData fb vinfo finfo x y w h data)
          (location vinfo finfo (x + i) (y + j))
        = if data (j * w + i) ≠ 0 then data (j * w + i)
          else load16 fb (location vinfo finfo (x + i) (y + j))) ∧
    (∀ qx qy : Int, onSurface qx qy → ¬ inRect x y w h qx qy →
      load16 (ImageGame.fillRectData fb vinfo finfo x y w h data) (location vinfo finfo qx qy)
        = load16 fb (location vinfo finfo qx qy)) := by
  have hno := hadr.1
  have hsurf : ∀ i j : Nat, i < w.toNat → j < h.toNat → onSurface (x + i) (y + j) :=
    fun i j hi hj => hadr.2 _ _ (by unfold inRect; omega)
  -- a surface pixel that no non-zero source pixel is copied to keeps its two bytes
  have hkeep : ∀ qx qy : Int, onSurface qx qy →
      (∀ i j : Nat, i < w.toNat → j < h.toNat → data ((j : Int) * w + (i : Int)) ≠ 0 →
        x + (i : Int) ≠ qx ∨ y + (j : Int) ≠ qy) →
      load16 (ImageGame.fillRectData fb vinfo finfo x y w h data) (location vinfo finfo qx qy)
        = load16 fb (location vinfo finfo qx qy) := by
    intro qx qy hq hother
    have hframe : ∀ a : Int,
        a = location vinfo finfo qx qy ∨ a = location vinfo finfo qx qy + 1 →
        ImageGame.fillRectData fb vinfo finfo x y w h data a = fb a := by
      intro a ha
      apply ImageGame.fillRectData_frame
      intro i j hi hj hd
      have hdis := hno (x + i) (y + j) qx qy (hsurf i j hi hj) hq (hother i j hi hj hd)
      omega
    unfold load16
    rw [hframe _ (Or.inl rfl), hframe _ (Or.inr rfl)]
  constructor
  · intro i j hi0 hiw hj0 hjh
    have hi : i.toNat < w.toNat := by omega
    have hj : j.toNat < h.toNat := by omega
    have ei : ((i.toNat : Nat) : Int) = i := Int.toNat_of_nonneg hi0
    have ej : ((j.toNat : Nat) : Int) = j := Int.toNat_of_nonneg hj0
    split_ifs with hd
    · have hw := ImageGame.fillRectData_written fb vinfo finfo x y w h data i.toNat j.toNat
        hadr hi hj (by rw [ei, ej]; exact hd)
      rw [ei, ej] at hw
      exact load16_of_cellHolds _ _ _ (hdata _) hw
    · have hs := hsurf i.toNat j.toNat hi hj
      rw [ei, ej] at hs
      apply hkeep _ _ hs
      intro i2 j2 _ _ hd2
      by_contra hcon
      push_neg at hcon
      have e1 : (i2 : Int) = i := by omega
      have e2 : (j2 : Int) = j := by omega
      rw [e1, e2] at hd2
      exact hd2 (not_not.1 hd)
  · intro qx qy hq hout
    apply hkeep _ _ hq
    intro i j hi hj _
    by_contra hcon
    push_neg at hcon
    apply hout
    rw [← hcon.1, ← hcon.2]
    unfold inRect
    omega

/-- C11 (witness): a 2 x 2 block with one transparent source pixel, blitted at
(10, 20) on a 1280 x 720 RGB565 surface whose pixels all hold 1799: pixel
(10, 20) receives 0x1234, pixel (11, 20) keeps 1799. -/
theorem c11_fillRectData_keyed_blit_witness :
    load16 (ImageGame.fillRectData (fun _ => 7) ⟨0, 0, 16⟩ ⟨2560⟩ 10 20 2 2
        (fun k => if k = 1 then 0 else 0x1234)) (location ⟨0, 0, 16⟩ ⟨2560⟩ (10 + 0) (20 + 0))
      = 0x1234 ∧
    load16 (ImageGame.fillRectData (fun _ => 7) ⟨0, 0, 16⟩ ⟨2560⟩ 10 20 2 2
        (fun k => if k = 1 then 0 else 0x1234)) (location ⟨0, 0, 16⟩ ⟨2560⟩ (10 + 1) (20 + 0))
      = 1799 :=
  have hadr : Addressable ⟨0, 0, 16⟩ ⟨2560⟩ 10 20 2 2 :=
    ⟨noOverlap_rgb565, fun px py hr => by
      unfold inRect at hr
      unfold onSurface
      simp only [WIDTH, HEIGHT]
      omega⟩
  have h := c11_fillRectData_keyed_blit (fun _ => 7) ⟨0, 0, 16⟩ ⟨2560⟩ 10 20 2 2
    (fun k => if k = 1 then 0 else 0x1234) hadr
    (fun k => by dsimp only; split_ifs <;> decide)
  ⟨(h.1 0 0 (by decide) (by decide) (by decide) (by decide)).trans (by decide),
   (h.1 1 0 (by decide) (by decide) (by decide) (by decide)).trans (by decide)⟩

/-! ## Runs without input -/

theorem Jumping.ticks_replicate_mem (blocks : List Block) (k : Bool × Bool) (L : List Player)
    (hL : ∀ p ∈ L, Jumping.tick blocks p k ∈ L) :
    ∀ (n : Nat) (p : Player), p ∈ L → Jumping.ticks blocks p (List.replicate n k) ∈ L := by
  intro n
  induction n with
  | zero => intro p hp; exact hp
  | succ n ih =>
    intro p hp
    exact ih _ (hL p hp)

theorem Jumping.ticks_append (blocks : List Block) (p : Player) (ks ls : List (Bool × Bool)) :
    Jumping.ticks blocks p (ks ++ ls) = Jumping.ticks blocks (Jumping.ticks blocks p ks) ls := by
  unfold Jumping.ticks
  rw [List.foldl_append]

set_option maxRecDepth 100000 in
theorem Jumping.scenario_closed :
    ∀ p ∈ Jumping.newPlayer 100 Jumping.GROUND_LEVEL :: Jumping.bounceStates,
      Jumping.tick [Jumping.scenarioBlock] p (false, false)
        ∈ Jumping.newPlayer 100 Jumping.GROUND_LEVEL :: Jumping.bounceStates := by
  decide

set_option maxRecDepth 100000 in
theorem Jumping.scenario_states :
    ∀ p ∈ Jumping.newPlayer 100 Jumping.GROUND_LEVEL :: Jumping.bounceStates,
      p.x = 100 ∧ 615 ≤ p.y ∧ p.y ≤ 660 ∧
      ¬ verticalOverlap p Jumping.scenarioBlock ∧
      ¬ verticalOverlap (Jumping.physics false false p) Jumping.scenarioBlock ∧
      ¬ horizontalOverlap (Jumping.physics false false p) Jumping.scenarioBlock ∧
      Jumping.checkCrash Jumping.scenarioBlock (Jumping.physics false false p) = .NONE := by
  decide

theorem Jumping.scenario_run (N : Nat) :
    Jumping.idle [Jumping.scenarioBlock] (Jumping.newPlayer 100 Jumping.GROUND_LEVEL) N
      ∈ Jumping.newPlayer 100 Jumping.GROUND_LEVEL :: Jumping.bounceStates :=
  Jumping.ticks_replicate_mem _ _ _ Jumping.scenario_closed N _ (List.mem_cons_self _ _)

/-- C12 (as stated, refuted): in the no-input scenario the player never comes
to rest atop the block: at no tick is its y equal to
`block.y - player.height = 570`, because its y never leaves [615, 660]. -/
theorem c12_player_never_atop_block :
    Jumping.scenarioBlock = ⟨120, 580, 50, 10⟩ ∧
    ¬ ∃ N : Nat,
      (Jumping.idle [Jumping.scenarioBlock] (Jumping.newPlayer 100 Jumping.GROUND_LEVEL) N).y
        = Jumping.scenarioBlock.y - 10 := by
  refine ⟨by decide, ?_⟩
  rintro ⟨N, hN⟩
  have h := (Jumping.scenario_states _ (Jumping.scenario_run N)).2.1
  have hb : Jumping.scenarioBlock.y = 580 := by decide
  rw [hb] at hN
  omega

/-- C12 (amended): in the no-input scenario of `2_jumping.cpp`, for every N the
player's x after N ticks is 100 and its y stays in [615, 660]; its box never
overlaps the block (120, 580, 50, 10) vertically, neither after a tick nor when
the block is tested during the next tick, nor horizontally (right edge 110),
so `checkCrash` answers `NONE` at every tick and the `TOP` correction is never
applied: the player keeps bouncing and is never at y = 570 atop the block. -/
theorem c12_no_input_scenario (N : Nat) :
    (Jumping.idle [Jumping.scenarioBlock]
      (Jumping.newPlayer 100 Jumping.GROUND_LEVEL) N).x = 100 ∧
    615 ≤ (Jumping.idle [Jumping.scenarioBlock]
      (Jumping.newPlayer 100 Jumping.GROUND_LEVEL) N).y ∧
    (Jumping.idle [Jumping.scenarioBlock]
      (Jumping.newPlayer 100 Jumping.GROUND_LEVEL) N).y ≤ 660 ∧
    ¬ verticalOverlap (Jumping.idle [Jumping.scenarioBlock]
      (Jumping.newPlayer 100 Jumping.GROUND_LEVEL) N) Jumping.scenarioBlock ∧
    ¬ verticalOverlap (Jumping.physics false false (Jumping.idle [Jumping.scenarioBlock]
      (Jumping.newPlayer 100 Jumping.GROUND_LEVEL) N)) Jumping.scenarioBlock ∧
    ¬ horizontalOverlap (Jumping.physics false false (Jumping.idle [Jumping.scenarioBlock]
      (Jumping.newPlayer 100 Jumping.GROUND_LEVEL) N)) Jumping.scenarioBlock ∧
    Jumping.checkCrash Jumping.scenarioBlock (Jumping.physics false false
      (Jumping.idle [Jumping.scenarioBlock]
        (Jumping.newPlayer 100 Jumping.GROUND_LEVEL) N)) = .NONE :=
  Jumping.scenario_states _ (Jumping.scenario_run N)

set_option maxRecDepth 100000 in
/-- C13: in `2_jumping.cpp`, from `Player(100, GROUND_LEVEL)` with the startup
scene, ten ticks with the left key held (right key not held) bring x to 50, and
after each of these ticks y and the velocity equal those after the same number
of ticks with no key held. -/
theorem c13_held_left :
    (Jumping.run (List.replicate 10 (true, false))).x = 50 ∧
    (Jumping.run (List.replicate 10 (true, false))).x - (Jumping.newPlayer 100 660).x = -50 ∧
    ∀ n : Fin 11,
      (Jumping.run (List.replicate n.val (true, false))).x = 100 - 5 * (n.val : Int) ∧
      (Jumping.run (List.replicate n.val (true, false))).y
        = (Jumping.run (List.replicate n.val (false, false))).y ∧
      (Jumping.run (List.replicate n.val (true, false))).gravity
        = (Jumping.run (List.replicate n.val (false, false))).gravity := by
  decide

/-! ## Input sampler -/

/-- C14: the key-state update for one event, in both demos. A key event with
value 1 and code `KEY_LEFT` (`KEY_RIGHT`) sets `left` (`right`) and changes
nothing else, with value 0 it clears that flag and changes nothing else; a key
event with value 1 and code `KEY_ESC` clears `running` and changes nothing
else; every other event leaves the three variables unchanged. -/
theorem c14_key_state_update (s : KeyState) (ev : InputEvent) :
    ImageGame.handleEvent s ev = Jumping.handleEvent s ev ∧
    (ev.type = EV_KEY → ev.value = 1 → ev.code = KEY_LEFT →
      Jumping.handleEvent s ev = ⟨true, s.right, s.running⟩) ∧
    (ev.type = EV_KEY → ev.value = 1 → ev.code = KEY_RIGHT →
      Jumping.handleEvent s ev = ⟨s.left, true, s.running⟩) ∧
    (ev.type = EV_KEY → ev.value = 0 → ev.code = KEY_LEFT →
      Jumping.handleEvent s ev = ⟨false, s.right, s.running⟩) ∧
    (ev.type = EV_KEY → ev.value = 0 → ev.code = KEY_RIGHT →
      Jumping.handleEvent s ev = ⟨s.left, false, s.running⟩) ∧
    (ev.type = EV_KEY → ev.value = 1 → ev.code = KEY_ESC →
      Jumping.handleEvent s ev = ⟨s.left, s.right, false⟩) ∧
    (¬ (ev.type = EV_KEY ∧
        ((ev.value = 1 ∧ (ev.code = KEY_LEFT ∨ ev.code = KEY_RIGHT ∨ ev.code = KEY_ESC)) ∨
         (ev.value = 0 ∧ (ev.code = KEY_LEFT ∨ ev.code = KEY_RIGHT)))) →
      Jumping.handleEvent s ev = s) := by
  refine ⟨rfl, ?_, ?_, ?_, ?_, ?_, ?_⟩
  · intro ht hv hc
    simp [Jumping.handleEvent, ht, hv, hc]
  · intro ht hv hc
    simp [Jumping.handleEvent, ht, hv, hc, KEY_RIGHT, KEY_LEFT]
  · intro ht hv hc
    simp [Jumping.handleEvent, ht, hv, hc]
  · intro ht hv hc
    simp [Jumping.handleEvent, ht, hv, hc, KEY_RIGHT, KEY_LEFT]
  · intro ht hv hc
    simp [Jumping.handleEvent, ht, hv, hc, KEY_RIGHT, KEY_LEFT, KEY_ESC]
  · intro hno
    unfold Jumping.handleEvent
    split_ifs <;> first | rfl | (exfalso; apply hno; tauto)

/-- C14 (witness): pressing the left key (type 1, code 105, value 1) while the
right key is held sets `left` only; its auto-repeat (value 2) changes nothing;
releasing `KEY_ESC` changes nothing. -/
theorem c14_key_state_update_witness :
    Jumping.handleEvent ⟨false, true, true⟩ ⟨1, 105, 1⟩ = ⟨true, true, true⟩ ∧
    Jumping.handleEvent ⟨true, true, true⟩ ⟨1, 105, 2⟩ = ⟨true, true, true⟩ ∧
    Jumping.handleEvent ⟨true, true, true⟩ ⟨1, 1, 0⟩ = ⟨true, true, true⟩ ∧
    ImageGame.handleEvent ⟨true, true, true⟩ ⟨1, 1, 1⟩ = ⟨true, true, false⟩ :=
  ⟨(c14_key_state_update ⟨false, true, true⟩ ⟨1, 105, 1⟩).2.1 rfl rfl rfl,
   (c14_key_state_update ⟨true, true, true⟩ ⟨1, 105, 2⟩).2.2.2.2.2.2 (by decide),
   (c14_key_state_update ⟨true, true, true⟩ ⟨1, 1, 0⟩).2.2.2.2.2.2 (by decide),
   ((c14_key_state_update ⟨true, true, true⟩ ⟨1, 1, 1⟩).1).trans
     ((c14_key_state_update ⟨true, true, true⟩ ⟨1, 1, 1⟩).2.2.2.2.2.1 rfl rfl rfl)⟩

/-! ## Horizontal codes and the player's height -/

theorem Jumping.checkCrash_vertical_of_height (b : Block) (p : Player)
    (hh : p.height ≤ b.height) :
    Jumping.checkCrash b p ≠ .LEFT ∧ Jumping.checkCrash b p ≠ .RIGHT := by
  unfold Jumping.checkCrash
  split_ifs <;> first | (constructor <;> decide) | (exfalso; omega)

theorem Jumping.blockLoop_keeps_x (blocks : List Block) (hbs : ∀ b ∈ blocks, b.height = 10)
    (p : Player) (hh : p.height = 10) :
    (Jumping.blockLoop p blocks).x = p.x ∧ (Jumping.blockLoop p blocks).height = 10 := by
  induction blocks generalizing p with
  | nil => exact ⟨rfl, hh⟩
  | cons b rest ih =>
    have hb := hbs b (List.mem_cons_self b rest)
    have hv := Jumping.checkCrash_vertical_of_height b p (by omega)
    have hf := Jumping.applyCrash_fields p b
    have hrest := ih (fun c hc => hbs c (List.mem_cons_of_mem b hc)) (Jumping.applyCrash p b)
      (hf.2.1.trans hh)
    exact ⟨hrest.1.trans (hf.2.2 hv.1 hv.2), hrest.2⟩

/-- C15: for every player and block with `player.height <= block.height`,
`checkCrash` (the same function in both demos) never returns `LEFT` or `RIGHT`;
consequently in `2_jumping.cpp`, where the player is 10 high and every block of
the scene is 50 x 10, the block loop never changes the player's x, and a tick
changes x by the input delta only. -/
theorem c15_no_horizontal_code (p : Player) (b : Block) :
    (p.height ≤ b.height →
      Jumping.checkCrash b p ≠ .LEFT ∧ Jumping.checkCrash b p ≠ .RIGHT ∧
      ImageGame.checkCrash b p ≠ .LEFT ∧ ImageGame.checkCrash b p ≠ .RIGHT) ∧
    (p.height = 10 →
      (Jumping.blockLoop p Jumping.scene).x = p.x ∧
      ∀ keys : Bool × Bool, (Jumping.tick Jumping.scene p keys).x
        = p.x + (if keys.1 then -5 else 0) + (if keys.2 then 5 else 0)) := by
  constructor
  · intro hh
    have h := Jumping.checkCrash_vertical_of_height b p hh
    exact ⟨h.1, h.2, h.1, h.2⟩
  · intro hh
    have hscene : ∀ c ∈ Jumping.scene, c.height = 10 := fun c hc => (Jumping.scene_mem c hc).2
    refine ⟨(Jumping.blockLoop_keeps_x Jumping.scene hscene p hh).1, ?_⟩
    intro keys
    have hp := Jumping.physics_clamped keys.1 keys.2 p
    have hx := (Jumping.blockLoop_keeps_x Jumping.scene hscene
      (Jumping.physics keys.1 keys.2 p) (hp.2.trans hh)).1
    unfold Jumping.tick
    rw [hx]
    unfold Jumping.physics
    simp only [Player.setY, Player.setGravity, Player.move]
    split_ifs <;> simp

/-- C15 (witness): the 10 x 10 player at (115, 635) and the first scene block
(120, 640, 50, 10): the boxes overlap, the code is `TOP`, and the block loop
leaves x at 115. -/
theorem c15_no_horizontal_code_witness :
    Jumping.checkCrash ⟨120, 640, 50, 10⟩ ⟨115, 635, 1, 10, 10⟩ = .TOP ∧
    Jumping.checkCrash ⟨120, 640, 50, 10⟩ ⟨115, 635, 1, 10, 10⟩ ≠ .LEFT ∧
    (Jumping.blockLoop ⟨115, 635, 1, 10, 10⟩ Jumping.scene).x = 115 :=
  ⟨by decide,
   ((c15_no_horizontal_code ⟨115, 635, 1, 10, 10⟩ ⟨120, 640, 50, 10⟩).1 (by decide)).1,
   ((c15_no_horizontal_code ⟨115, 635, 1, 10, 10⟩ ⟨120, 640, 50, 10⟩).2 rfl).1⟩

/-! ## Colours that collide with the transparent key -/

/-- C16: for colours with 8-bit channels, the 16-bit `convertTo` returns 0
exactly when r < 8, g < 4 and b < 8, whatever the alpha; for every such colour
`fillRect` of `5_image.cpp` called with `convertTo(colour)` leaves the whole
buffer unchanged, for every rectangle. -/
theorem c16_transparent_key_collision (c : Color) (hc : c.valid) :
    (convertTo c = 0 ↔ (c.r < 8 ∧ c.g < 4 ∧ c.b < 8)) ∧
    ((c.r < 8 ∧ c.g < 4 ∧ c.b < 8) →
      ∀ (fb : Mem) (vinfo : VarScreenInfo) (finfo : FixScreenInfo) (x y w h : Int),
        ImageGame.fillRect fb vinfo finfo x y w h (convertTo c) = fb) := by
  have e := convertTo_eq_sum c hc
  have hiff : convertTo c = 0 ↔ (c.r < 8 ∧ c.g < 4 ∧ c.b < 8) := by
    rw [e]
    constructor
    · intro h0; omega
    · intro h0; omega
  refine ⟨hiff, ?_⟩
  intro h0 fb vinfo finfo x y w h
  rw [hiff.2 h0]
  exact ImageGame.fillRect_color_zero fb vinfo finfo x y w h

/-- C16 (witness): black (0, 0, 0) and the dark colour (7, 3, 7, 255) both
encode to 0, and filling the whole screen with the latter changes nothing. -/
theorem c16_transparent_key_collision_witness :
    convertTo ⟨0, 0, 0, 0⟩ = 0 ∧ convertTo ⟨7, 3, 7, 255⟩ = 0 ∧
    ImageGame.fillRect (fun _ => 7) ⟨0, 0, 16⟩ ⟨2560⟩ 0 0 WIDTH HEIGHT (convertTo ⟨7, 3, 7, 255⟩)
      = (fun _ => 7) :=
  ⟨(c16_transparent_key_collision ⟨0, 0, 0, 0⟩ (by decide)).1.2 (by decide),
   (c16_transparent_key_collision ⟨7, 3, 7, 255⟩ (by decide)).1.2 (by decide),
   (c16_transparent_key_collision ⟨7, 3, 7, 255⟩ (by decide)).2 (by decide) _ _ _ _ _ _ _⟩

/-! ## Free bounce -/

theorem Jumping.blockLoop_no_overlap (blocks : List Block) (q : Player)
    (h : ∀ c ∈ blocks, ¬ aabbOverlap q c) : Jumping.blockLoop q blocks = q := by
  induction blocks with
  | nil => rfl
  | cons b rest ih =>
    have hb : Jumping.checkCrash b q = .NONE :=
      (Jumping.checkCrash_eq_none_iff b q).2 (Or.inl (h b (List.mem_cons_self b rest)))
    have hstep : Jumping.applyCrash q b = q := by
      unfold Jumping.applyCrash
      rw [hb]
      rfl
    show Jumping.blockLoop (Jumping.applyCrash q b) rest = q
    rw [hstep]
    exact ih (fun c hc => h c (List.mem_cons_of_mem b hc))

theorem Jumping.scene_left_edge (b : Block) (hb : b ∈ Jumping.scene) : 120 ≤ b.x := by
  obtain ⟨i, _, rfl⟩ := List.mem_map.1 hb
  show (120 : Int) ≤ 120 + (i : Int) * 100
  omega

theorem Jumping.tick_scene_idle (p : Player) (hx : p.x = 100) (hw : p.width = 10) :
    Jumping.tick Jumping.scene p (false, false) = Jumping.physics false false p := by
  show Jumping.blockLoop (Jumping.physics false false p) Jumping.scene = _
  apply Jumping.blockLoop_no_overlap
  intro c hc hov
  have hc120 := Jumping.scene_left_edge c hc
  have hq : (Jumping.physics false false p).x = 100 ∧
      (Jumping.physics false false p).width = 10 := by
    unfold Jumping.physics
    simp only [Player.setY, Player.setGravity, Player.move, Bool.false_eq_true, if_false]
    split_ifs <;> exact ⟨hx, hw⟩
  unfold aabbOverlap at hov
  omega

theorem Jumping.bounce_closed :
    ∀ p ∈ Jumping.bounceStates, Jumping.physics false false p ∈ Jumping.bounceStates := by
  decide

theorem Jumping.bounce_bounds :
    ∀ p ∈ Jumping.bounceStates,
      p.x = 100 ∧ p.width = 10 ∧ 615 ≤ p.y ∧ p.y ≤ 660 ∧ -10 ≤ p.gravity ∧ p.gravity ≤ 9 := by
  decide

theorem Jumping.idle_eq_iterate (n : Nat) (p : Player) (hp : p ∈ Jumping.bounceStates) :
    Jumping.ticks Jumping.scene p (List.replicate n (false, false))
      = (Jumping.physics false false)^[n] p := by
  induction n generalizing p with
  | zero => rfl
  | succ n ih =>
    have hb := Jumping.bounce_bounds p hp
    show Jumping.ticks Jumping.scene (Jumping.tick Jumping.scene p (false, false))
      (List.replicate n (false, false)) = _
    rw [Jumping.tick_scene_idle p hb.1 hb.2.1, ih _ (Jumping.bounce_closed p hp)]
    rfl

theorem Jumping.run_idle_eq (n : Nat) :
    Jumping.run (List.replicate (n + 1) (false, false))
      = (Jumping.physics false false)^[n] ⟨100, 660, -10, 10, 10⟩ := by
  have h1 : Jumping.tick Jumping.scene (Jumping.newPlayer 100 Jumping.GROUND_LEVEL)
      (false, false) = ⟨100, 660, -10, 10, 10⟩ := by
    rw [Jumping.tick_scene_idle _ rfl rfl]
    decide
  show Jumping.ticks Jumping.scene (Jumping.tick Jumping.scene
    (Jumping.newPlayer 100 Jumping.GROUND_LEVEL) (false, false))
      (List.replicate n (false, false)) = _
  rw [h1]
  exact Jumping.idle_eq_iterate n _ (by decide)

theorem Jumping.iterate_mem (n : Nat) (p : Player) (hp : p ∈ Jumping.bounceStates) :
    (Jumping.physics false false)^[n] p ∈ Jumping.bounceStates := by
  induction n generalizing p with
  | zero => exact hp
  | succ n ih => exact ih _ (Jumping.bounce_closed p hp)

set_option maxRecDepth 20000 in
theorem Jumping.bounce_return :
    (Jumping.physics false false)^[19] ⟨100, 660, -10, 10, 10⟩ = ⟨100, 660, -10, 10, 10⟩ := by
  decide

set_option maxRecDepth 20000 in
theorem Jumping.bounce_no_early_return : ∀ k : Fin 18,
    (((Jumping.physics false false)^[k.val + 1] ⟨100, 660, -10, 10, 10⟩).y,
      ((Jumping.physics false false)^[k.val + 1] ⟨100, 660, -10, 10, 10⟩).gravity)
    ≠ ((660 : Int), (-10 : Int)) := by
  decide

/-- C17: in `2_jumping.cpp`, with no key held the player stays at x = 100 where
no block of the scene overlaps it; from (y, velocity) = (660, 1) the state
after the first tick is (660, -10), and from then on the states repeat every 19
ticks and with no shorter period (none of the next 18 states has
(y, velocity) = (660, -10) again), with y in [615, 660] and the velocity in
[-10, 9] at the end of every tick. -/
theorem c17_free_bounce_periodic :
    Jumping.newPlayer 100 Jumping.GROUND_LEVEL = ⟨100, 660, 1, 10, 10⟩ ∧
    Jumping.run (List.replicate 1 (false, false)) = ⟨100, 660, -10, 10, 10⟩ ∧
    (∀ n : Nat, Jumping.run (List.replicate (n + 1 + 19) (false, false))
      = Jumping.run (List.replicate (n + 1) (false, false))) ∧
    (∀ k : Fin 18,
      ((Jumping.run (List.replicate (k.val + 1 + 1) (false, false))).y,
        (Jumping.run (List.replicate (k.val + 1 + 1) (false, false))).gravity)
      ≠ ((Jumping.run (List.replicate 1 (false, false))).y,
        (Jumping.run (List.replicate 1 (false, false))).gravity)) ∧
    (∀ n : Nat,
      (Jumping.run (List.replicate (n + 1) (false, false))).x = 100 ∧
      615 ≤ (Jumping.run (List.replicate (n + 1) (false, false))).y ∧
      (Jumping.run (List.replicate (n + 1) (false, false))).y ≤ 660 ∧
      -10 ≤ (Jumping.run (List.replicate (n + 1) (false, false))).gravity ∧
      (Jumping.run (List.replicate (n + 1) (false, false))).gravity ≤ 9) := by
  have h1 : Jumping.run (List.replicate 1 (false, false)) = ⟨100, 660, -10, 10, 10⟩ :=
    Jumping.run_idle_eq 0
  refine ⟨by decide, h1, ?_, ?_, ?_⟩
  · intro n
    have e : n + 1 + 19 = (n + 19) + 1 := by omega
    rw [e, Jumping.run_idle_eq, Jumping.run_idle_eq, Function.iterate_add_apply,
      Jumping.bounce_return]
  · intro k
    rw [h1, Jumping.run_idle_eq]
    exact Jumping.bounce_no_early_return k
  · intro n
    rw [Jumping.run_idle_eq]
    have hb := Jumping.bounce_bounds _
      (Jumping.iterate_mem n ⟨100, 660, -10, 10, 10⟩ (by decide))
    exact ⟨hb.1, hb.2.2⟩

/-! ## Resting on a block -/

/-- C18: resting on a block is a fixed point of the tick of `2_jumping.cpp`.
Let the block have height >= 1 and `block.y <= GROUND_LEVEL`, and let the
10-high player overlap it horizontally with `y = block.y - player.height` and
velocity 0. If no key is held and no other block of the list overlaps the
player during the tick (the blocks before it are tested against the player
moved by gravity, those after it against the corrected player), then after one
full tick the player is unchanged. -/
theorem c18_rest_fixed_point (pre post : List Block) (b : Block) (p : Player)
    (hh : p.height = 10) (hbh : 1 ≤ b.height) (hby : b.y ≤ Jumping.GROUND_LEVEL)
    (hov : horizontalOverlap p b) (hy : p.y = b.y - p.height) (hg : p.gravity = 0)
    (hpre : ∀ c ∈ pre, ¬ aabbOverlap (Jumping.physics false false p) c)
    (hpost : ∀ c ∈ post, ¬ aabbOverlap p c) :
    Jumping.tick (pre ++ b :: post) p (false, false) = p := by
  have hphys : Jumping.physics false false p = { p with gravity := 1, y := b.y - 9 } := by
    unfold Jumping.physics
    simp only [Player.setY, Player.setGravity, Player.move, Bool.false_eq_true, if_false]
    simp only [Jumping.GROUND_LEVEL, HEIGHT] at hby ⊢
    rw [if_neg (by omega)]
    cases p
    simp only at hh hy hg ⊢
    subst hh hy hg
    simp only [Player.mk.injEq, true_and, and_true]
    constructor <;> omega
  show Jumping.blockLoop (Jumping.physics false false p) (pre ++ b :: post) = p
  unfold Jumping.blockLoop
  rw [List.foldl_append, List.foldl_cons]
  have e1 : List.foldl Jumping.applyCrash (Jumping.physics false false p) pre
      = Jumping.physics false false p := Jumping.blockLoop_no_overlap pre _ hpre
  rw [e1]
  have e2 : Jumping.applyCrash (Jumping.physics false false p) b = p := by
    rw [hphys]
    unfold horizontalOverlap at hov
    have hc : Jumping.checkCrash b { p with gravity := 1, y := b.y - 9 } = .TOP := by
      unfold Jumping.checkCrash
      simp only
      rw [if_pos (by omega), if_pos (by omega), if_pos (by omega)]
    unfold Jumping.applyCrash
    rw [hc]
    cases p
    simp only at hh hy hg ⊢
    subst hh hy hg
    simp only [Jumping.correct, Player.setY, Player.setGravity]
  rw [e2]
  exact Jumping.blockLoop_no_overlap post p hpost

/-- C18 (witness): the player resting at (130, 630) on the first block
(120, 640, 50, 10) of the startup scene, the other nine blocks behind it in the
list; after one tick without input the player is unchanged. -/
theorem c18_rest_fixed_point_witness :
    Jumping.scene = [] ++ (⟨120, 640, 50, 10⟩ : Block) :: Jumping.scene.tail ∧
    Jumping.tick Jumping.scene ⟨130, 630, 0, 10, 10⟩ (false, false) = ⟨130, 630, 0, 10, 10⟩ :=
  have hs : Jumping.scene = [] ++ (⟨120, 640, 50, 10⟩ : Block) :: Jumping.scene.tail := by
    decide
  ⟨hs, hs ▸ c18_rest_fixed_point [] Jumping.scene.tail ⟨120, 640, 50, 10⟩
    ⟨130, 630, 0, 10, 10⟩ rfl (by decide) (by decide) (by decide) (by decide) rfl
    (by decide) (by decide)⟩
